import Mathlib

/-!
# OkapiLib: the iterative velocity PID controller

A shallow embedding of `src/src/control/iterative/iterativeVelPidController.cpp`.

Modelling conventions.

* `double` values are rationals (`ℚ`) in the first embedding: its statements are about
  exact arithmetic, without rounding, infinities or NaN. The statements about the range
  of the output, for which NaN matters, are made over a second embedding of the same
  member functions (namespace `dbl`), whose values include NaN, the infinities and
  negative zero and whose arithmetic operators are a parameter.
* `std::uint32_t` values (the sample period, clock readings, elapsed times) are
  natural numbers. The controller performs no arithmetic on them apart from the
  conversion to `double`, so no wrap-around is involved in the controller itself.
* The three collaborators owned by the controller through `std::unique_ptr`
  (`VelMath`, `Timer`, `SettledUtil`) are not part of the translated sources.
  The velocity estimator and the settling predicate are taken as parameters: an
  arbitrary state type together with the operations the controller calls on it.
  The timer is modelled from the specification as a hard mark.
* A member function that mutates the object becomes a function returning the new
  object; `step`, which also returns a value, returns the pair of both.
-/

namespace okapi

/-- The function `std::clamp(v, lo, hi)` of `<algorithm>`:
`(v < lo) ? lo : (hi < v) ? hi : v`. -/
def clamp (v lo hi : ℚ) : ℚ :=
  if v < lo then lo else if hi < v then hi else v

/-- Operations of the velocity estimator (`VelMath`) used by the controller, over an
arbitrary estimator state `V`. `step` consumes a raw reading and returns the new
estimator together with the velocity it computed. -/
structure VelMath (V : Type) where
  step : V → ℚ → V × ℚ
  getVelocity : V → ℚ
  getAccel : V → ℚ
  setTicksPerRev : V → ℚ → V

/-- Operations of the settling predicate (`SettledUtil`) used by the controller, over
an arbitrary state `S`. `isSettled` may update the predicate's own state. -/
structure SettledUtil (S : Type) where
  isSettled : S → ℚ → S × Bool

/-- Modelled from the spec: the class `Timer` (the elapsed-time tracker), whose source
is not among the translated files. It holds a hard mark, "a timestamp checkpoint used to
gate sampled execution to a fixed period"; `none` means that no mark is set. -/
structure Timer where
  hardMark : Option Nat
deriving DecidableEq, Repr

namespace Timer

/-- Modelled from the spec: `Timer::placeHardMark` records the current time `now` as the
hard mark only when no mark is set. -/
def placeHardMark (t : Timer) (now : Nat) : Timer :=
  match t.hardMark with
  | none => { hardMark := some now }
  | some _ => t

/-- Modelled from the spec: `Timer::getDtFromHardMark` is the time elapsed at `now`
since the hard mark (and `0` without a mark, a case `step` never reaches because it
places the mark first). The clock is monotone, so the difference is taken in `Nat`. -/
def getDtFromHardMark (t : Timer) (now : Nat) : Nat :=
  match t.hardMark with
  | none => 0
  | some m => now - m

/-- Modelled from the spec: `Timer::clearHardMark` removes the hard mark. -/
def clearHardMark (_t : Timer) : Timer :=
  { hardMark := none }

end Timer

/-- The data members of `IterativeVelPIDController` read or written by the member
functions of `iterativeVelPidController.cpp`. `V` and `S` are the state types of the
velocity estimator and of the settling predicate. -/
structure IterativeVelPIDController (V S : Type) where
  kP : ℚ
  kD : ℚ
  sampleTime : Nat
  error : ℚ
  lastError : ℚ
  derivative : ℚ
  target : ℚ
  output : ℚ
  outputMax : ℚ
  outputMin : ℚ
  isOn : Bool
  velMath : V
  loopDtTimer : Timer
  settledUtil : S

namespace IterativeVelPIDController

variable {V S : Type}

/-- `setGains(ikP, ikD)`: `kP = ikP; kD = ikD * double(sampleTime) / 1000.0`. -/
def setGains (c : IterativeVelPIDController V S) (ikP ikD : ℚ) :
    IterativeVelPIDController V S :=
  { c with kP := ikP, kD := ikD * (c.sampleTime : ℚ) / 1000 }

/-- `setSampleTime(isampleTime)`: when `isampleTime > 0`,
`kD /= double(isampleTime) / double(sampleTime); sampleTime = isampleTime`. -/
def setSampleTime (c : IterativeVelPIDController V S) (isampleTime : Nat) :
    IterativeVelPIDController V S :=
  if isampleTime > 0 then
    { c with
      kD := c.kD / ((isampleTime : ℚ) / (c.sampleTime : ℚ)),
      sampleTime := isampleTime }
  else c

/-- `setOutputLimits(imax, imin)`: swaps the arguments when `imin > imax`, stores them
and clamps the stored output into the new range. -/
def setOutputLimits (c : IterativeVelPIDController V S) (imax imin : ℚ) :
    IterativeVelPIDController V S :=
  let imax1 := if imin > imax then imin else imax
  let imin1 := if imin > imax then imax else imin
  { c with
    outputMax := imax1,
    outputMin := imin1,
    output := clamp c.output imin1 imax1 }

/-- `stepVel(inewReading)`: `return velMath->step(inewReading)`. -/
def stepVel (vm : VelMath V) (c : IterativeVelPIDController V S) (inewReading : ℚ) :
    IterativeVelPIDController V S × ℚ :=
  ({ c with velMath := (vm.step c.velMath inewReading).1 },
    (vm.step c.velMath inewReading).2)

/-- `step(inewReading)`, called when the clock reads `now`. Returns the controller after
the call and the value returned by the call. -/
def step (vm : VelMath V) (su : SettledUtil S) (c : IterativeVelPIDController V S)
    (inewReading : ℚ) (now : Nat) : IterativeVelPIDController V S × ℚ :=
  if c.isOn then
    -- loopDtTimer->placeHardMark();
    let c1 := { c with loopDtTimer := c.loopDtTimer.placeHardMark now }
    if c1.loopDtTimer.getDtFromHardMark now ≥ c1.sampleTime then
      -- stepVel(inewReading);
      let c2 := (stepVel vm c1 inewReading).1
      -- error = target - velMath->getVelocity();
      let c3 := { c2 with error := c2.target - vm.getVelocity c2.velMath }
      -- derivative = velMath->getAccel();
      let c4 := { c3 with derivative := vm.getAccel c3.velMath }
      -- output += kP * error - kD * derivative;
      let c5 := { c4 with output := c4.output + (c4.kP * c4.error - c4.kD * c4.derivative) }
      -- output = std::clamp(output, outputMin, outputMax);
      let c6 := { c5 with output := clamp c5.output c5.outputMin c5.outputMax }
      -- lastError = error;
      let c7 := { c6 with lastError := c6.error }
      -- loopDtTimer->clearHardMark();
      let c8 := { c7 with loopDtTimer := c7.loopDtTimer.clearHardMark }
      -- settledUtil->isSettled(error);
      let c9 := { c8 with settledUtil := (su.isSettled c8.settledUtil c8.error).1 }
      (c9, c9.output)
    else
      (c1, c1.output)
  else
    (c, 0)

/-- `setTarget(itarget)`: `target = itarget`. -/
def setTarget (c : IterativeVelPIDController V S) (itarget : ℚ) :
    IterativeVelPIDController V S :=
  { c with target := itarget }

/-- `getOutput()`: `isOn ? output : 0`. -/
def getOutput (c : IterativeVelPIDController V S) : ℚ :=
  if c.isOn then c.output else 0

/-- `getError()`. -/
def getError (c : IterativeVelPIDController V S) : ℚ := c.error

/-- `getDerivative()`. -/
def getDerivative (c : IterativeVelPIDController V S) : ℚ := c.derivative

/-- `isSettled()`: `return settledUtil->isSettled(error)`. -/
def isSettled (su : SettledUtil S) (c : IterativeVelPIDController V S) :
    IterativeVelPIDController V S × Bool :=
  ({ c with settledUtil := (su.isSettled c.settledUtil c.error).1 },
    (su.isSettled c.settledUtil c.error).2)

/-- `reset()`: `error = 0; lastError = 0; output = 0`. -/
def reset (c : IterativeVelPIDController V S) : IterativeVelPIDController V S :=
  { c with error := 0, lastError := 0, output := 0 }

/-- `flipDisable()`: `isOn = !isOn`. -/
def flipDisable (c : IterativeVelPIDController V S) : IterativeVelPIDController V S :=
  { c with isOn := !c.isOn }

/-- `flipDisable(iisDisabled)`: `isOn = !iisDisabled`. -/
def flipDisableTo (c : IterativeVelPIDController V S) (iisDisabled : Bool) :
    IterativeVelPIDController V S :=
  { c with isOn := !iisDisabled }

/-- `isDisabled()`: `return !isOn`. -/
def isDisabled (c : IterativeVelPIDController V S) : Bool := !c.isOn

/-- `setTicksPerRev(tpr)`: `velMath->setTicksPerRev(tpr)`. -/
def setTicksPerRev (vm : VelMath V) (c : IterativeVelPIDController V S) (tpr : ℚ) :
    IterativeVelPIDController V S :=
  { c with velMath := vm.setTicksPerRev c.velMath tpr }

/-- `getVel()`: `return velMath->getVelocity()`. -/
def getVel (vm : VelMath V) (c : IterativeVelPIDController V S) : ℚ :=
  vm.getVelocity c.velMath

/-- `getSampleTime()`: `return sampleTime`. -/
def getSampleTime (c : IterativeVelPIDController V S) : Nat := c.sampleTime

end IterativeVelPIDController

/-! ## Test doubles used to evaluate the controller on concrete inputs -/

/-- A finite-difference estimator used as a test double: its state is
`(last reading, velocity, acceleration)`; a step sets the velocity to the difference of
the reading and the last reading and the acceleration to the change of velocity. -/
def diffVelMath : VelMath (ℚ × ℚ × ℚ) where
  step := fun v r => ((r, r - v.1, (r - v.1) - v.2.1), r - v.1)
  getVelocity := fun v => v.2.1
  getAccel := fun v => v.2.2
  setTicksPerRev := fun v _ => v

/-- A settling predicate used as a test double: its state counts the consecutive errors
of magnitude at most one; it reports settled from the second one on. -/
def countSettledUtil : SettledUtil Nat where
  isSettled := fun n e =>
    if |e| ≤ 1 then (n + 1, decide (1 ≤ n)) else (0, false)

/-- A controller over the test doubles: gains `kP = 1`, `kD = 1/2`, sample period 10,
target 10, output 0 within the limits `[-127, 127]`, enabled, no hard mark. -/
def demo : IterativeVelPIDController (ℚ × ℚ × ℚ) Nat where
  kP := 1
  kD := 1 / 2
  sampleTime := 10
  error := 0
  lastError := 0
  derivative := 0
  target := 10
  output := 0
  outputMax := 127
  outputMin := -127
  isOn := true
  velMath := (0, 0, 0)
  loopDtTimer := { hardMark := none }
  settledUtil := 0

/-- The controller `demo` with a hard mark placed at clock reading 0. -/
def demoMarked : IterativeVelPIDController (ℚ × ℚ × ℚ) Nat :=
  { demo with loopDtTimer := { hardMark := some 0 } }

/-- Runs `step` once for each `(reading, clock reading)` pair of a list, in order, and
returns the final controller together with the values returned by the calls. -/
def stepMany {V S : Type} (vm : VelMath V) (su : SettledUtil S)
    (c : IterativeVelPIDController V S) :
    List (ℚ × Nat) → IterativeVelPIDController V S × List ℚ
  | [] => (c, [])
  | call :: rest =>
    ((stepMany vm su (IterativeVelPIDController.step vm su c call.1 call.2).1 rest).1,
      (IterativeVelPIDController.step vm su c call.1 call.2).2 ::
        (stepMany vm su (IterativeVelPIDController.step vm su c call.1 call.2).1 rest).2)

/-- The values the data members hold when the body of the constructor starts: the default
member initialisers of the class declaration, which is not among the translated sources,
and for `kP` and `kD`, which `setGains` assigns without reading them, whatever they hold
before. They are a parameter of `construct`. -/
structure MemberDefaults where
  kP : ℚ
  kD : ℚ
  sampleTime : Nat
  error : ℚ
  lastError : ℚ
  derivative : ℚ
  target : ℚ
  output : ℚ
  outputMax : ℚ
  outputMin : ℚ
  isOn : Bool

/-- The constructor `IterativeVelPIDController(ikP, ikD, ivelMath, iloopDtTimer,
isettledUtil)`: moves the three collaborators into the members and calls
`setGains(ikP, ikD)`. -/
def construct {V S : Type} (d : MemberDefaults) (ikP ikD : ℚ) (ivelMath : V)
    (iloopDtTimer : Timer) (isettledUtil : S) : IterativeVelPIDController V S :=
  IterativeVelPIDController.setGains
    { kP := d.kP,
      kD := d.kD,
      sampleTime := d.sampleTime,
      error := d.error,
      lastError := d.lastError,
      derivative := d.derivative,
      target := d.target,
      output := d.output,
      outputMax := d.outputMax,
      outputMin := d.outputMin,
      isOn := d.isOn,
      velMath := ivelMath,
      loopDtTimer := iloopDtTimer,
      settledUtil := isettledUtil }
    ikP ikD

/-- Whether a `step` call at clock reading `now` is an accepted sample: the conjunction of
the two guards of `step`, `isOn` and `getDtFromHardMark() >= sampleTime` after
`placeHardMark()`. -/
def accepted {V S : Type} (c : IterativeVelPIDController V S) (now : Nat) : Bool :=
  c.isOn && decide (c.sampleTime ≤ (c.loopDtTimer.placeHardMark now).getDtFromHardMark now)

/-- The increment `kP * error - kD * derivative` that an accepted sample with the given
reading adds to the output before clamping. -/
def increment {V S : Type} (vm : VelMath V) (c : IterativeVelPIDController V S)
    (reading : ℚ) : ℚ :=
  c.kP * (c.target - vm.getVelocity (vm.step c.velMath reading).1)
    - c.kD * vm.getAccel (vm.step c.velMath reading).1

/-- The number of accepted samples among the `step` calls of a run of `stepMany`. -/
def acceptedCount {V S : Type} (vm : VelMath V) (su : SettledUtil S)
    (c : IterativeVelPIDController V S) : List (ℚ × Nat) → Nat
  | [] => 0
  | call :: rest =>
    (if accepted c call.2 then 1 else 0) +
      acceptedCount vm su (IterativeVelPIDController.step vm su c call.1 call.2).1 rest

/-- Every accepted sample of a run of `stepMany` saturates: the output plus the increment
of the sample reaches `outputMax`. -/
def allAcceptedSaturate {V S : Type} (vm : VelMath V) (su : SettledUtil S)
    (c : IterativeVelPIDController V S) : List (ℚ × Nat) → Bool
  | [] => true
  | call :: rest =>
    (!accepted c call.2 || decide (c.outputMax ≤ c.output + increment vm c call.1)) &&
      allAcceptedSaturate vm su (IterativeVelPIDController.step vm su c call.1 call.2).1 rest

/-- The member functions of `IterativeVelPIDController` that modify the object, with their
arguments; `step` carries the clock reading of the call as well. -/
inductive Op where
  | setGains (ikP ikD : ℚ)
  | setSampleTime (isampleTime : Nat)
  | setOutputLimits (imax imin : ℚ)
  | stepVel (inewReading : ℚ)
  | step (inewReading : ℚ) (now : Nat)
  | setTarget (itarget : ℚ)
  | isSettled
  | reset
  | flipDisable
  | flipDisableTo (iisDisabled : Bool)
  | setTicksPerRev (tpr : ℚ)

/-- The controller after one operation. -/
def applyOp {V S : Type} (vm : VelMath V) (su : SettledUtil S)
    (c : IterativeVelPIDController V S) : Op → IterativeVelPIDController V S
  | Op.setGains ikP ikD => IterativeVelPIDController.setGains c ikP ikD
  | Op.setSampleTime isampleTime => IterativeVelPIDController.setSampleTime c isampleTime
  | Op.setOutputLimits imax imin => IterativeVelPIDController.setOutputLimits c imax imin
  | Op.stepVel inewReading => (IterativeVelPIDController.stepVel vm c inewReading).1
  | Op.step inewReading now => (IterativeVelPIDController.step vm su c inewReading now).1
  | Op.setTarget itarget => IterativeVelPIDController.setTarget c itarget
  | Op.isSettled => (IterativeVelPIDController.isSettled su c).1
  | Op.reset => IterativeVelPIDController.reset c
  | Op.flipDisable => IterativeVelPIDController.flipDisable c
  | Op.flipDisableTo iisDisabled => IterativeVelPIDController.flipDisableTo c iisDisabled
  | Op.setTicksPerRev tpr => IterativeVelPIDController.setTicksPerRev vm c tpr

/-- The controller after a sequence of operations, performed in order. -/
def applyOps {V S : Type} (vm : VelMath V) (su : SettledUtil S)
    (c : IterativeVelPIDController V S) : List Op → IterativeVelPIDController V S
  | [] => c
  | op :: rest => applyOps vm su (applyOp vm su c op) rest

/-- An estimator used as a test double that reports velocity 0 and acceleration 0 at
every sample; its state counts the samples. -/
def zeroVelMath : VelMath Nat where
  step := fun v _ => (v + 1, 0)
  getVelocity := fun _ => 0
  getAccel := fun _ => 0
  setTicksPerRev := fun v _ => v

/-- A controller over `zeroVelMath`: gains `kP = 1`, `kD = 0`, sample period 10, target
10, output 0 within the limits `[-25, 25]`, enabled, hard mark at clock reading 0. -/
def ramp : IterativeVelPIDController Nat Nat where
  kP := 1
  kD := 0
  sampleTime := 10
  error := 0
  lastError := 0
  derivative := 0
  target := 10
  output := 0
  outputMax := 25
  outputMin := -25
  isOn := true
  velMath := 0
  loopDtTimer := { hardMark := some 0 }
  settledUtil := 0

/-- The controller `demoMarked` with the limits `[-5, 5]`. -/
def demoTight : IterativeVelPIDController (ℚ × ℚ × ℚ) Nat :=
  IterativeVelPIDController.setOutputLimits demoMarked 5 (-5)

/-! ## The controller over `double` values with NaN and infinities

The definitions above compute in exact arithmetic. The definitions of this section
translate the same member functions over a type of `double` values that has NaN, the two
infinities and negative zero, with the comparison operators of C++ on them, and take the
four arithmetic operators as a parameter. They serve the statements about the range of
the output, where NaN matters. -/

namespace dbl

/-- A `double`: NaN, an infinity, negative zero, or a finite value `fin q` (`fin 0` is
positive zero). Every binary64 value is of one of these forms; the type does not restrict
`q` to the binary64 grid. -/
inductive Double where
  | nan
  | negInf
  | posInf
  | negZero
  | fin (q : ℚ)
deriving DecidableEq

namespace Double

/-- The rational value of a finite `double` (zero for the other values). -/
def toRat : Double → ℚ
  | fin q => q
  | _ => 0

/-- The operator `<` of C++ on `double`: false when an operand is NaN. -/
def lt (a b : Double) : Bool :=
  match a, b with
  | nan, _ => false
  | _, nan => false
  | posInf, _ => false
  | _, negInf => false
  | negInf, _ => true
  | _, posInf => true
  | x, y => decide (x.toRat < y.toRat)

/-- The operator `<=` of C++ on `double`: false when an operand is NaN. -/
def le (a b : Double) : Bool :=
  match a, b with
  | nan, _ => false
  | _, nan => false
  | negInf, _ => true
  | _, posInf => true
  | posInf, _ => false
  | _, negInf => false
  | x, y => decide (x.toRat ≤ y.toRat)

/-- The conversion `static_cast<double>` of a `std::uint32_t`, which is exact. -/
def ofUInt32 (n : Nat) : Double := fin (n : ℚ)

/-- The smaller of two values that are not NaN. -/
def min (a b : Double) : Double := if lt a b then a else b

/-- The larger of two values that are not NaN. -/
def max (a b : Double) : Double := if lt a b then b else a

/-- Whether the value is NaN. -/
def isNaN : Double → Bool
  | nan => true
  | _ => false

/-- The sign bit. -/
def isNeg : Double → Bool
  | nan => false
  | negInf => true
  | posInf => false
  | negZero => true
  | fin q => decide (q < 0)

/-- Whether the value is an infinity. -/
def isInf : Double → Bool
  | negInf => true
  | posInf => true
  | _ => false

/-- Whether the value is a zero. -/
def isZero : Double → Bool
  | negZero => true
  | fin q => decide (q = 0)
  | _ => false

/-- The zero of the given sign bit. -/
def zero (neg : Bool) : Double := if neg then negZero else fin 0

/-- The infinity of the given sign bit. -/
def inf (neg : Bool) : Double := if neg then negInf else posInf

/-- The magnitude from which a result rounds to an infinity in round-to-nearest:
`2^1024 - 2^970`, half a unit in the last place above `DBL_MAX = 2^1024 - 2^971`. -/
def overflowThreshold : ℚ := 2 ^ 1024 - 2 ^ 970

/-- The `double` of a rational result: an infinity when its magnitude reaches the overflow
threshold, else the result itself. The result is not rounded to the binary64 grid. -/
def ofRat (q : ℚ) : Double :=
  if overflowThreshold ≤ q then posInf
  else if q ≤ -overflowThreshold then negInf
  else fin q

/-- Unary minus. -/
def neg : Double → Double
  | nan => nan
  | negInf => posInf
  | posInf => negInf
  | negZero => fin 0
  | fin q => if q = 0 then negZero else fin (-q)

/-- Addition with the IEEE 754 rules for NaN, infinities and zeros; a finite sum is exact
up to overflow. -/
def add (a b : Double) : Double :=
  match a, b with
  | nan, _ => nan
  | _, nan => nan
  | posInf, negInf => nan
  | negInf, posInf => nan
  | posInf, _ => posInf
  | _, posInf => posInf
  | negInf, _ => negInf
  | _, negInf => negInf
  | negZero, negZero => negZero
  | negZero, fin q => fin q
  | fin p, negZero => fin p
  | fin p, fin q => ofRat (p + q)

/-- Subtraction, `a + (-b)`. -/
def sub (a b : Double) : Double := add a (neg b)

/-- Multiplication with the IEEE 754 rules for NaN, infinities and zeros; a finite product
is exact up to overflow. -/
def mul (a b : Double) : Double :=
  if a.isNaN || b.isNaN then nan
  else if a.isInf then (if b.isZero then nan else inf (xor a.isNeg b.isNeg))
  else if b.isInf then (if a.isZero then nan else inf (xor a.isNeg b.isNeg))
  else if a.isZero || b.isZero then zero (xor a.isNeg b.isNeg)
  else ofRat (a.toRat * b.toRat)

/-- Division with the IEEE 754 rules for NaN, infinities and zeros; a finite quotient is
exact up to overflow. -/
def div (a b : Double) : Double :=
  if a.isNaN || b.isNaN then nan
  else if a.isInf then (if b.isInf then nan else inf (xor a.isNeg b.isNeg))
  else if b.isInf then zero (xor a.isNeg b.isNeg)
  else if b.isZero then (if a.isZero then nan else inf (xor a.isNeg b.isNeg))
  else if a.isZero then zero (xor a.isNeg b.isNeg)
  else ofRat (a.toRat / b.toRat)

end Double

/-- The four arithmetic operators on `double`, a parameter of the member functions. -/
structure Arith where
  add : Double → Double → Double
  sub : Double → Double → Double
  mul : Double → Double → Double
  div : Double → Double → Double

/-- The arithmetic used to evaluate the member functions on concrete inputs: the IEEE 754
rules on NaN, infinities and signed zeros, and overflow to an infinity; a finite result
is the exact rational result, so rounding to the binary64 grid and underflow are not part
of it. It agrees with binary64 arithmetic wherever the exact result is a binary64 value
or overflows. -/
def unroundedArith : Arith where
  add := Double.add
  sub := Double.sub
  mul := Double.mul
  div := Double.div

/-- The function `std::clamp(v, lo, hi)` of `<algorithm>` on `double`:
`(v < lo) ? lo : (hi < v) ? hi : v`. -/
def clamp (v lo hi : Double) : Double :=
  if Double.lt v lo then lo else if Double.lt hi v then hi else v

/-- Operations of the velocity estimator (`VelMath`) used by the controller. -/
structure VelMath (V : Type) where
  step : V → Double → V × Double
  getVelocity : V → Double
  getAccel : V → Double
  setTicksPerRev : V → Double → V

/-- Operations of the settling predicate (`SettledUtil`) used by the controller. -/
structure SettledUtil (S : Type) where
  isSettled : S → Double → S × Bool

/-- The data members of `IterativeVelPIDController`, over `double` values. -/
structure IterativeVelPIDController (V S : Type) where
  kP : Double
  kD : Double
  sampleTime : Nat
  error : Double
  lastError : Double
  derivative : Double
  target : Double
  output : Double
  outputMax : Double
  outputMin : Double
  isOn : Bool
  velMath : V
  loopDtTimer : Timer
  settledUtil : S

namespace IterativeVelPIDController

variable {V S : Type}

/-- `setGains(ikP, ikD)`: `kP = ikP; kD = ikD * double(sampleTime) / 1000.0`. -/
def setGains (ar : Arith) (c : IterativeVelPIDController V S) (ikP ikD : Double) :
    IterativeVelPIDController V S :=
  { c with
    kP := ikP,
    kD := ar.div (ar.mul ikD (Double.ofUInt32 c.sampleTime)) (Double.fin 1000) }

/-- `setSampleTime(isampleTime)`: when `isampleTime > 0`,
`kD /= double(isampleTime) / double(sampleTime); sampleTime = isampleTime`. -/
def setSampleTime (ar : Arith) (c : IterativeVelPIDController V S) (isampleTime : Nat) :
    IterativeVelPIDController V S :=
  if isampleTime > 0 then
    { c with
      kD := ar.div c.kD
        (ar.div (Double.ofUInt32 isampleTime) (Double.ofUInt32 c.sampleTime)),
      sampleTime := isampleTime }
  else c

/-- `setOutputLimits(imax, imin)`: swaps the arguments when `imin > imax`, stores them
and clamps the stored output into the new range. -/
def setOutputLimits (c : IterativeVelPIDController V S) (imax imin : Double) :
    IterativeVelPIDController V S :=
  let imax1 := if Double.lt imax imin then imin else imax
  let imin1 := if Double.lt imax imin then imax else imin
  { c with
    outputMax := imax1,
    outputMin := imin1,
    output := clamp c.output imin1 imax1 }

/-- `stepVel(inewReading)`: `return velMath->step(inewReading)`. -/
def stepVel (vm : VelMath V) (c : IterativeVelPIDController V S) (inewReading : Double) :
    IterativeVelPIDController V S × Double :=
  ({ c with velMath := (vm.step c.velMath inewReading).1 },
    (vm.step c.velMath inewReading).2)

/-- The value `output + (kP * error - kD * derivative)` that an accepted sample with the
given reading passes to `std::clamp`. -/
def unclamped (ar : Arith) (vm : VelMath V) (c : IterativeVelPIDController V S)
    (inewReading : Double) : Double :=
  ar.add c.output
    (ar.sub
      (ar.mul c.kP (ar.sub c.target (vm.getVelocity (vm.step c.velMath inewReading).1)))
      (ar.mul c.kD (vm.getAccel (vm.step c.velMath inewReading).1)))

/-- `step(inewReading)`, called when the clock reads `now`. Returns the controller after
the call and the value returned by the call. -/
def step (ar : Arith) (vm : VelMath V) (su : SettledUtil S)
    (c : IterativeVelPIDController V S) (inewReading : Double) (now : Nat) :
    IterativeVelPIDController V S × Double :=
  if c.isOn then
    -- loopDtTimer->placeHardMark();
    let c1 := { c with loopDtTimer := c.loopDtTimer.placeHardMark now }
    if c1.loopDtTimer.getDtFromHardMark now ≥ c1.sampleTime then
      -- stepVel(inewReading);
      let c2 := (stepVel vm c1 inewReading).1
      -- error = target - velMath->getVelocity();
      let c3 := { c2 with error := ar.sub c2.target (vm.getVelocity c2.velMath) }
      -- derivative = velMath->getAccel();
      let c4 := { c3 with derivative := vm.getAccel c3.velMath }
      -- output += kP * error - kD * derivative;
      let c5 := { c4 with
        output := ar.add c4.output
          (ar.sub (ar.mul c4.kP c4.error) (ar.mul c4.kD c4.derivative)) }
      -- output = std::clamp(output, outputMin, outputMax);
      let c6 := { c5 with output := clamp c5.output c5.outputMin c5.outputMax }
      -- lastError = error;
      let c7 := { c6 with lastError := c6.error }
      -- loopDtTimer->clearHardMark();
      let c8 := { c7 with loopDtTimer := c7.loopDtTimer.clearHardMark }
      -- settledUtil->isSettled(error);
      let c9 := { c8 with settledUtil := (su.isSettled c8.settledUtil c8.error).1 }
      (c9, c9.output)
    else
      (c1, c1.output)
  else
    (c, Double.fin 0)

/-- Whether `outputMin <= output && output <= outputMax` holds of the stored values. -/
def withinLimits (c : IterativeVelPIDController V S) : Bool :=
  Double.le c.outputMin c.output && Double.le c.output c.outputMax

/-- `setTarget(itarget)`: `target = itarget`. -/
def setTarget (c : IterativeVelPIDController V S) (itarget : Double) :
    IterativeVelPIDController V S :=
  { c with target := itarget }

/-- `isSettled()`: `return settledUtil->isSettled(error)`. -/
def isSettled (su : SettledUtil S) (c : IterativeVelPIDController V S) :
    IterativeVelPIDController V S × Bool :=
  ({ c with settledUtil := (su.isSettled c.settledUtil c.error).1 },
    (su.isSettled c.settledUtil c.error).2)

/-- `reset()`: `error = 0; lastError = 0; output = 0`. -/
def reset (c : IterativeVelPIDController V S) : IterativeVelPIDController V S :=
  { c with error := Double.fin 0, lastError := Double.fin 0, output := Double.fin 0 }

/-- `flipDisable()`: `isOn = !isOn`. -/
def flipDisable (c : IterativeVelPIDController V S) : IterativeVelPIDController V S :=
  { c with isOn := !c.isOn }

/-- `flipDisable(iisDisabled)`: `isOn = !iisDisabled`. -/
def flipDisableTo (c : IterativeVelPIDController V S) (iisDisabled : Bool) :
    IterativeVelPIDController V S :=
  { c with isOn := !iisDisabled }

/-- `setTicksPerRev(tpr)`: `velMath->setTicksPerRev(tpr)`. -/
def setTicksPerRev (vm : VelMath V) (c : IterativeVelPIDController V S) (tpr : Double) :
    IterativeVelPIDController V S :=
  { c with velMath := vm.setTicksPerRev c.velMath tpr }

end IterativeVelPIDController

/-- A call made by a client that drives the controller: `step` with a reading at a clock
reading, or `setTarget`. -/
inductive Call where
  | step (reading : Double) (now : Nat)
  | setTarget (itarget : Double)

/-- Performs a list of `step` and `setTarget` calls in order; returns the final controller
and the values returned by the `step` calls. -/
def runCalls {V S : Type} (ar : Arith) (vm : VelMath V) (su : SettledUtil S)
    (c : IterativeVelPIDController V S) :
    List Call → IterativeVelPIDController V S × List Double
  | [] => (c, [])
  | Call.step reading now :: rest =>
    ((runCalls ar vm su (IterativeVelPIDController.step ar vm su c reading now).1 rest).1,
      (IterativeVelPIDController.step ar vm su c reading now).2 ::
        (runCalls ar vm su (IterativeVelPIDController.step ar vm su c reading now).1 rest).2)
  | Call.setTarget itarget :: rest =>
    runCalls ar vm su (IterativeVelPIDController.setTarget c itarget) rest

/-- The member functions of `IterativeVelPIDController` that modify the object, with their
arguments; `step` carries the clock reading of the call as well. -/
inductive Op where
  | setGains (ikP ikD : Double)
  | setSampleTime (isampleTime : Nat)
  | setOutputLimits (imax imin : Double)
  | stepVel (inewReading : Double)
  | step (inewReading : Double) (now : Nat)
  | setTarget (itarget : Double)
  | isSettled
  | reset
  | flipDisable
  | flipDisableTo (iisDisabled : Bool)
  | setTicksPerRev (tpr : Double)

/-- The controller after one operation. -/
def applyOp {V S : Type} (ar : Arith) (vm : VelMath V) (su : SettledUtil S)
    (c : IterativeVelPIDController V S) : Op → IterativeVelPIDController V S
  | Op.setGains ikP ikD => IterativeVelPIDController.setGains ar c ikP ikD
  | Op.setSampleTime isampleTime => IterativeVelPIDController.setSampleTime ar c isampleTime
  | Op.setOutputLimits imax imin => IterativeVelPIDController.setOutputLimits c imax imin
  | Op.stepVel inewReading => (IterativeVelPIDController.stepVel vm c inewReading).1
  | Op.step inewReading now => (IterativeVelPIDController.step ar vm su c inewReading now).1
  | Op.setTarget itarget => IterativeVelPIDController.setTarget c itarget
  | Op.isSettled => (IterativeVelPIDController.isSettled su c).1
  | Op.reset => IterativeVelPIDController.reset c
  | Op.flipDisable => IterativeVelPIDController.flipDisable c
  | Op.flipDisableTo iisDisabled => IterativeVelPIDController.flipDisableTo c iisDisabled
  | Op.setTicksPerRev tpr => IterativeVelPIDController.setTicksPerRev vm c tpr

/-- A finite-difference estimator over `double` used as a test double: its state is
`(last reading, velocity, acceleration)`. -/
def diffVelMath : VelMath (Double × Double × Double) where
  step := fun v r =>
    ((r, Double.sub r v.1, Double.sub (Double.sub r v.1) v.2.1), Double.sub r v.1)
  getVelocity := fun v => v.2.1
  getAccel := fun v => v.2.2
  setTicksPerRev := fun v _ => v

/-- A settling predicate over `double` used as a test double: settled when the error is
within `[-1, 1]`; it has no state. -/
def unitSettledUtil : SettledUtil Unit where
  isSettled := fun _ e =>
    ((), Double.le (Double.fin (-1)) e && Double.le e (Double.fin 1))

/-- A controller over the test doubles: gains `kP = 1`, `kD = 1/2`, sample period 10,
target 10, output 0 within the limits `[-127, 127]`, enabled, no hard mark. -/
def demo : IterativeVelPIDController (Double × Double × Double) Unit where
  kP := Double.fin 1
  kD := Double.fin (1 / 2)
  sampleTime := 10
  error := Double.fin 0
  lastError := Double.fin 0
  derivative := Double.fin 0
  target := Double.fin 10
  output := Double.fin 0
  outputMax := Double.fin 127
  outputMin := Double.fin (-127)
  isOn := true
  velMath := (Double.fin 0, Double.fin 0, Double.fin 0)
  loopDtTimer := { hardMark := none }
  settledUtil := ()

/-- The controller `demo` with the finite gains `kP = kD = 2^1000` and the finite target
`2^101`. -/
def demoHuge : IterativeVelPIDController (Double × Double × Double) Unit :=
  { demo with
    kP := Double.fin (2 ^ 1000),
    kD := Double.fin (2 ^ 1000),
    target := Double.fin (2 ^ 101) }

/-- The controller `demoHuge` with a hard mark placed at clock reading 0. -/
def demoHugeMarked : IterativeVelPIDController (Double × Double × Double) Unit :=
  { demoHuge with loopDtTimer := { hardMark := some 0 } }

/-- The controller `demo` with the limits `[1, 2]`, whose stored output is clamped to 1. -/
def demoNarrow : IterativeVelPIDController (Double × Double × Double) Unit :=
  IterativeVelPIDController.setOutputLimits demo (Double.fin 2) (Double.fin 1)

end dbl

end okapi

open okapi okapi.IterativeVelPIDController

/-! ## Auxiliary facts about `step` -/

/-- A disabled controller is left as it is by `step`, which returns `0`. -/
theorem step_of_off {V S : Type} (vm : VelMath V) (su : SettledUtil S)
    (c : IterativeVelPIDController V S) (reading : ℚ) (now : Nat)
    (hOff : c.isOn = false) : step vm su c reading now = (c, 0) := by
  simp [step, hOff]

/-- A gated call: an enabled controller whose timer reports less than the sample period
only gets the hard mark placed and returns the stored output. -/
theorem step_of_lt {V S : Type} (vm : VelMath V) (su : SettledUtil S)
    (c : IterativeVelPIDController V S) (reading : ℚ) (now : Nat)
    (hOn : c.isOn = true)
    (hDt : (c.loopDtTimer.placeHardMark now).getDtFromHardMark now < c.sampleTime) :
    step vm su c reading now =
      ({ c with loopDtTimer := c.loopDtTimer.placeHardMark now }, c.output) := by
  simp only [step, hOn, if_true]
  rw [if_neg (by simpa using hDt)]

/-- The elapsed time reported right after placing the mark, by cases on the mark. -/
theorem getDt_placeHardMark (t : Timer) (now : Nat) :
    (t.placeHardMark now).getDtFromHardMark now =
      match t.hardMark with
      | none => 0
      | some m => now - m := by
  cases t with
  | mk hm => cases hm <;> simp [Timer.placeHardMark, Timer.getDtFromHardMark]


/-- C1: an accepted step of an enabled controller (the timer reports an elapsed time from
the hard mark of at least the sample period) feeds the reading to the estimator, sets
`error = target - velocity`, `derivative = acceleration`,
`output = clamp (output + kP*error - kD*derivative) outputMin outputMax`,
`lastError = error`, clears the hard mark, evaluates the settling predicate on the new
error, leaves every other field as it was, and returns the new output. -/
theorem step_accepted_state {V S : Type} (vm : VelMath V) (su : SettledUtil S)
    (c : IterativeVelPIDController V S) (reading : ℚ) (now : Nat)
    (hOn : c.isOn = true)
    (hDt : (c.loopDtTimer.placeHardMark now).getDtFromHardMark now ≥ c.sampleTime) :
    step vm su c reading now =
      ({ c with
          velMath := (vm.step c.velMath reading).1,
          error := c.target - vm.getVelocity (vm.step c.velMath reading).1,
          derivative := vm.getAccel (vm.step c.velMath reading).1,
          output := clamp
            (c.output + (c.kP * (c.target - vm.getVelocity (vm.step c.velMath reading).1)
              - c.kD * vm.getAccel (vm.step c.velMath reading).1))
            c.outputMin c.outputMax,
          lastError := c.target - vm.getVelocity (vm.step c.velMath reading).1,
          loopDtTimer := { hardMark := none },
          settledUtil := (su.isSettled c.settledUtil
            (c.target - vm.getVelocity (vm.step c.velMath reading).1)).1 },
        clamp
          (c.output + (c.kP * (c.target - vm.getVelocity (vm.step c.velMath reading).1)
            - c.kD * vm.getAccel (vm.step c.velMath reading).1))
          c.outputMin c.outputMax) := by
  simp only [step, stepVel, hOn, if_true, Timer.clearHardMark]
  rw [if_pos hDt]

/-- Witness of C1: the marked demo controller, stepped at clock reading 10 with reading 5,
stores error 5, derivative 5 and output `0 + 1*5 - (1/2)*5 = 5/2`, and returns `5/2`. -/
theorem step_accepted_state_witness :
    demoMarked.isOn = true ∧
    (demoMarked.loopDtTimer.placeHardMark 10).getDtFromHardMark 10 ≥ demoMarked.sampleTime ∧
    (step diffVelMath countSettledUtil demoMarked 5 10).2 = 5 / 2 ∧
    (step diffVelMath countSettledUtil demoMarked 5 10).1.error = 5 ∧
    (step diffVelMath countSettledUtil demoMarked 5 10).1.loopDtTimer.hardMark = none := by
  refine ⟨rfl, by decide, ?_⟩
  rw [step_accepted_state diffVelMath countSettledUtil demoMarked 5 10 rfl (by decide)]
  norm_num [demoMarked, demo, diffVelMath, clamp]

/-- C2: for every controller and reading, after `flipDisable(true)` a `step` returns
exactly `0` and leaves the whole controller (all fields, the timer and the estimator)
as it was; the controller differs from the one before `flipDisable(true)` in the enabled
flag only; and after a following `flipDisable(false)`, `getOutput()` returns the output
stored before the controller was disabled. -/
theorem disabled_step_frame {V S : Type} (vm : VelMath V) (su : SettledUtil S)
    (c : IterativeVelPIDController V S) (x : ℚ) (now : Nat) :
    step vm su (flipDisableTo c true) x now = (flipDisableTo c true, 0) ∧
    flipDisableTo c true = { c with isOn := false } ∧
    getOutput (flipDisableTo (step vm su (flipDisableTo c true) x now).1 false) =
      c.output := by
  refine ⟨step_of_off vm su _ x now rfl, rfl, ?_⟩
  rw [step_of_off vm su _ x now rfl]
  simp [getOutput, flipDisableTo]

/-- Between an accepted sample at clock reading `t0` and `t0 + sampleTime`, every `step`
call is gated: stepping an enabled controller whose hard mark is absent or not older than
`t0` at times within `[t0, t0 + sampleTime)` returns the stored output each time. -/
theorem stepMany_gated {V S : Type} (vm : VelMath V) (su : SettledUtil S) (t0 : Nat)
    (calls : List (ℚ × Nat)) :
    ∀ c : IterativeVelPIDController V S, c.isOn = true →
      (∀ m, c.loopDtTimer.hardMark = some m → t0 ≤ m) →
      (∀ call ∈ calls, t0 ≤ call.2 ∧ call.2 < t0 + c.sampleTime) →
      (∀ y ∈ (stepMany vm su c calls).2, y = c.output) ∧
      (stepMany vm su c calls).1.output = c.output ∧
      (stepMany vm su c calls).1.error = c.error ∧
      (stepMany vm su c calls).1.lastError = c.lastError ∧
      (stepMany vm su c calls).1.derivative = c.derivative ∧
      (stepMany vm su c calls).1.velMath = c.velMath := by
  induction calls with
  | nil => intro c _ _ _; simp [stepMany]
  | cons call rest ih =>
    intro c hOn hMark hT
    have hcall := hT call (List.mem_cons_self _ _)
    have hDt : (c.loopDtTimer.placeHardMark call.2).getDtFromHardMark call.2
        < c.sampleTime := by
      rw [getDt_placeHardMark]
      cases hm : c.loopDtTimer.hardMark with
      | none => simp only; omega
      | some m => have := hMark m hm; simp only; omega
    have hstep := step_of_lt vm su c call.1 call.2 hOn hDt
    have hMark1 : ∀ m, (c.loopDtTimer.placeHardMark call.2).hardMark = some m → t0 ≤ m := by
      intro m
      cases hm : c.loopDtTimer.hardMark with
      | none =>
        simp only [Timer.placeHardMark, hm, Option.some.injEq]
        intro h; omega
      | some m1 =>
        simp only [Timer.placeHardMark, hm, Option.some.injEq]
        intro h; have := hMark m1 hm; omega
    have hrest := ih { c with loopDtTimer := c.loopDtTimer.placeHardMark call.2 } hOn hMark1
      (fun x hx => hT x (List.mem_cons_of_mem _ hx))
    simp only [stepMany, hstep, List.mem_cons]
    refine ⟨?_, hrest.2⟩
    intro y hy
    rcases hy with h | h
    · exact h
    · exact hrest.1 y h

/-- C3: (a) a `step` call on an enabled controller for which the timer reports less than
the sample period returns the stored output and changes nothing but the timer, where the
hard mark is placed: output, error, lastError, derivative and the velocity estimator are
unchanged, the reading is not fed to the estimator. (b) After a sample accepted at clock
reading `t0`, all `step` calls made at clock readings in `[t0, t0 + sampleTime)` return
the same value, the output stored by the accepted sample, and leave output, error and the
estimator as the accepted sample left them. -/
theorem step_gated_frame {V S : Type} (vm : VelMath V) (su : SettledUtil S)
    (c : IterativeVelPIDController V S) (reading : ℚ) (now : Nat)
    (r0 : ℚ) (t0 : Nat) (calls : List (ℚ × Nat)) (hOn : c.isOn = true) :
    ((c.loopDtTimer.placeHardMark now).getDtFromHardMark now < c.sampleTime →
      step vm su c reading now =
        ({ c with loopDtTimer := c.loopDtTimer.placeHardMark now }, c.output)) ∧
    ((c.loopDtTimer.placeHardMark t0).getDtFromHardMark t0 ≥ c.sampleTime →
      (∀ call ∈ calls, t0 ≤ call.2 ∧ call.2 < t0 + c.sampleTime) →
      (∀ y ∈ (stepMany vm su (step vm su c r0 t0).1 calls).2,
        y = (step vm su c r0 t0).2) ∧
      (stepMany vm su (step vm su c r0 t0).1 calls).1.output = (step vm su c r0 t0).2 ∧
      (stepMany vm su (step vm su c r0 t0).1 calls).1.error =
        (step vm su c r0 t0).1.error ∧
      (stepMany vm su (step vm su c r0 t0).1 calls).1.velMath =
        (step vm su c r0 t0).1.velMath) := by
  refine ⟨step_of_lt vm su c reading now hOn, ?_⟩
  intro hDt hT
  have hacc : (step vm su c r0 t0).1.isOn = true ∧
      (step vm su c r0 t0).1.loopDtTimer.hardMark = none ∧
      (step vm su c r0 t0).1.sampleTime = c.sampleTime ∧
      (step vm su c r0 t0).2 = (step vm su c r0 t0).1.output := by
    simp only [step, stepVel, hOn, if_true, Timer.clearHardMark]
    rw [if_pos hDt]
    exact ⟨rfl, rfl, rfl, rfl⟩
  obtain ⟨h1, h2, h3, h4⟩ := hacc
  have key := stepMany_gated vm su t0 calls (step vm su c r0 t0).1 h1
    (by intro m hm; rw [h2] at hm; cases hm) (by rw [h3]; exact hT)
  rw [h4]
  exact ⟨key.1, key.2.1, key.2.2.1, key.2.2.2.2.2⟩

/-- Witness of C3: the marked demo controller (mark at 0, period 10) stepped at clock
reading 5 is gated; after the sample accepted at clock reading 10, the calls at clock
readings 12 and 19 both return the value returned by the accepted sample. -/
theorem step_gated_frame_witness :
    demoMarked.isOn = true ∧
    (demoMarked.loopDtTimer.placeHardMark 5).getDtFromHardMark 5 < demoMarked.sampleTime ∧
    (demoMarked.loopDtTimer.placeHardMark 10).getDtFromHardMark 10
      ≥ demoMarked.sampleTime ∧
    (∀ call ∈ [((7 : ℚ), 12), (9, 19)], 10 ≤ call.2 ∧ call.2 < 10 + demoMarked.sampleTime) ∧
    step diffVelMath countSettledUtil demoMarked 3 5 =
      ({ demoMarked with loopDtTimer := demoMarked.loopDtTimer.placeHardMark 5 },
        demoMarked.output) ∧
    (∀ y ∈ (stepMany diffVelMath countSettledUtil
        (step diffVelMath countSettledUtil demoMarked 5 10).1 [(7, 12), (9, 19)]).2,
      y = (step diffVelMath countSettledUtil demoMarked 5 10).2) :=
  have hcalls : ∀ call ∈ [((7 : ℚ), 12), (9, 19)],
      10 ≤ call.2 ∧ call.2 < 10 + demoMarked.sampleTime := by
    simp [demoMarked, demo]
  ⟨rfl, by decide, by decide, hcalls,
    (step_gated_frame diffVelMath countSettledUtil demoMarked 3 5 5 10
      [(7, 12), (9, 19)] rfl).1 (by decide),
    ((step_gated_frame diffVelMath countSettledUtil demoMarked 3 5 5 10
      [(7, 12), (9, 19)] rfl).2 (by decide) hcalls).1⟩

/-- Counterexample to C4 as stated: with sample period 10, after the sample accepted at
clock reading 10 (error 5, output 5/2, mark cleared), the `step` call at clock reading
100, made 90 after that accepted sample, is not accepted: it returns the previous output
5/2, keeps the old error 5 (a recomputation would store `10 - 4 = 6`), does not feed the
reading 9 to the estimator, and only places the hard mark at 100. -/
theorem step_long_after_accepted_is_gated :
    (step diffVelMath countSettledUtil demoMarked 5 10).1.isOn = true ∧
    0 < (step diffVelMath countSettledUtil demoMarked 5 10).1.sampleTime ∧
    (step diffVelMath countSettledUtil demoMarked 5 10).1.loopDtTimer.hardMark = none ∧
    (step diffVelMath countSettledUtil demoMarked 5 10).1.error = 5 ∧
    (step diffVelMath countSettledUtil demoMarked 5 10).2 = 5 / 2 ∧
    100 - 10 ≥ (step diffVelMath countSettledUtil demoMarked 5 10).1.sampleTime ∧
    (step diffVelMath countSettledUtil
      (step diffVelMath countSettledUtil demoMarked 5 10).1 9 100).2 = 5 / 2 ∧
    (step diffVelMath countSettledUtil
      (step diffVelMath countSettledUtil demoMarked 5 10).1 9 100).1.error = 5 ∧
    (step diffVelMath countSettledUtil demoMarked 5 10).1.target -
      diffVelMath.getVelocity (diffVelMath.step
        (step diffVelMath countSettledUtil demoMarked 5 10).1.velMath 9).1 = 6 ∧
    (step diffVelMath countSettledUtil
      (step diffVelMath countSettledUtil demoMarked 5 10).1 9 100).1.velMath =
        (step diffVelMath countSettledUtil demoMarked 5 10).1.velMath ∧
    (step diffVelMath countSettledUtil
      (step diffVelMath countSettledUtil demoMarked 5 10).1 9 100).1.loopDtTimer.hardMark =
        some 100 := by
  norm_num [step, stepVel, demoMarked, demo, diffVelMath, countSettledUtil,
    Timer.placeHardMark, Timer.getDtFromHardMark, Timer.clearHardMark, clamp]

/-- C4 (amended): for an enabled controller with a positive sample period, the gate is
decided by the time elapsed since the hard mark, which the first `step` call after an
accepted sample places at its own clock reading. (i) Without a mark (no call since the
last accepted sample) the call is gated whatever the clock reads: it places the mark and
returns the stored output. (ii) With a mark at `m`, the call is gated, leaving the
controller as it is and returning the stored output, if and only if `now - m` is less than
the sample period; it is accepted, clearing the mark, if and only if `now - m` is at least
the sample period, and then feeds the estimator and recomputes error and output. -/
theorem step_gate_from_hard_mark {V S : Type} (vm : VelMath V) (su : SettledUtil S)
    (c : IterativeVelPIDController V S) (reading : ℚ) (now : Nat)
    (hOn : c.isOn = true) (hS : 0 < c.sampleTime) :
    (c.loopDtTimer.hardMark = none →
      step vm su c reading now =
        ({ c with loopDtTimer := { hardMark := some now } }, c.output)) ∧
    (∀ m, c.loopDtTimer.hardMark = some m →
      (now - m < c.sampleTime ↔ step vm su c reading now = (c, c.output)) ∧
      (c.sampleTime ≤ now - m ↔
        (step vm su c reading now).1.loopDtTimer.hardMark = none) ∧
      (c.sampleTime ≤ now - m →
        (step vm su c reading now).1.velMath = (vm.step c.velMath reading).1 ∧
        (step vm su c reading now).1.error =
          c.target - vm.getVelocity (vm.step c.velMath reading).1 ∧
        (step vm su c reading now).1.output =
          clamp (c.output +
            (c.kP * (c.target - vm.getVelocity (vm.step c.velMath reading).1)
              - c.kD * vm.getAccel (vm.step c.velMath reading).1))
            c.outputMin c.outputMax ∧
        (step vm su c reading now).2 = (step vm su c reading now).1.output)) := by
  obtain ⟨kP, kD, sampleTime, error, lastError, derivative, target, output, outputMax,
    outputMin, isOn, velMath, ⟨hm⟩, settledUtil⟩ := c
  simp only at hOn hS
  subst hOn
  constructor
  · intro h
    simp only at h
    subst h
    have hlt : ¬ sampleTime ≤ 0 := by omega
    simp [step, Timer.placeHardMark, Timer.getDtFromHardMark, hlt]
  · intro m h
    simp only at h
    subst h
    by_cases hge : sampleTime ≤ now - m
    · have hnlt : ¬ now - m < sampleTime := by omega
      simp [step, stepVel, Timer.placeHardMark, Timer.getDtFromHardMark,
        Timer.clearHardMark, hge, hnlt]
    · have hlt : now - m < sampleTime := by omega
      simp [step, Timer.placeHardMark, Timer.getDtFromHardMark, hge, hlt]

/-- Witness of C4 (amended): the demo controller without a mark is gated at clock reading
100 and gets the mark placed there; with the mark at 0 and period 10 it is gated at clock
reading 9 and accepted at clock reading 10, where it stores the error `10 - 5`. -/
theorem step_gate_from_hard_mark_witness :
    demo.isOn = true ∧ 0 < demo.sampleTime ∧ demo.loopDtTimer.hardMark = none ∧
    demoMarked.isOn = true ∧ 0 < demoMarked.sampleTime ∧
    demoMarked.loopDtTimer.hardMark = some 0 ∧
    step diffVelMath countSettledUtil demo 5 100 =
      ({ demo with loopDtTimer := { hardMark := some 100 } }, demo.output) ∧
    step diffVelMath countSettledUtil demoMarked 5 9 = (demoMarked, demoMarked.output) ∧
    (step diffVelMath countSettledUtil demoMarked 5 10).1.loopDtTimer.hardMark = none ∧
    (step diffVelMath countSettledUtil demoMarked 5 10).1.error =
      demoMarked.target - diffVelMath.getVelocity (diffVelMath.step demoMarked.velMath 5).1 :=
  ⟨rfl, by decide, rfl, rfl, by decide, rfl,
    (step_gate_from_hard_mark diffVelMath countSettledUtil demo 5 100 rfl (by decide)).1 rfl,
    ((step_gate_from_hard_mark diffVelMath countSettledUtil demoMarked 5 9 rfl
      (by decide)).2 0 rfl).1.mp (by decide),
    ((step_gate_from_hard_mark diffVelMath countSettledUtil demoMarked 5 10 rfl
      (by decide)).2 0 rfl).2.1.mp (by decide),
    (((step_gate_from_hard_mark diffVelMath countSettledUtil demoMarked 5 10 rfl
      (by decide)).2 0 rfl).2.2 (by decide)).2.1⟩

/-! ## Output limits -/

/-- The state stored by `setOutputLimits`, in terms of `min` and `max`. -/
theorem setOutputLimits_eq {V S : Type} (c : IterativeVelPIDController V S) (a b : ℚ) :
    setOutputLimits c a b =
      { c with
        outputMax := max a b,
        outputMin := min a b,
        output := clamp c.output (min a b) (max a b) } := by
  unfold setOutputLimits
  by_cases h : b > a
  · have h1 : a ≤ b := le_of_lt h
    simp only [h, if_true, max_eq_right h1, min_eq_left h1]
  · have h1 : b ≤ a := not_lt.mp h
    simp only [h, if_false, max_eq_left h1, min_eq_right h1]

/-- C5: for all bounds `a`, `b` and every controller, `setOutputLimits(a, b)` and
`setOutputLimits(b, a)` produce the same controller, in which `outputMax = max a b`,
`outputMin = min a b`, `outputMax ≥ outputMin`, the stored output is the previous output
clamped into `[min a b, max a b]`, and every other field is as before. -/
theorem setOutputLimits_symmetric {V S : Type} (c : IterativeVelPIDController V S)
    (a b : ℚ) :
    setOutputLimits c a b = setOutputLimits c b a ∧
    setOutputLimits c a b =
      { c with
        outputMax := max a b,
        outputMin := min a b,
        output := clamp c.output (min a b) (max a b) } ∧
    (setOutputLimits c a b).outputMax ≥ (setOutputLimits c a b).outputMin := by
  refine ⟨?_, setOutputLimits_eq c a b, ?_⟩
  · rw [setOutputLimits_eq c a b, setOutputLimits_eq c b a, max_comm a b, min_comm a b]
  · rw [setOutputLimits_eq c a b]
    exact min_le_max

/-! ## Sample period and gains -/

/-- C7: for every controller with sample period `s > 0` and every new period `n > 0`,
`setSampleTime(n)` followed by `setSampleTime(s)` restores the stored `kD` and the sample
period (and the whole controller) to their original values, in exact arithmetic. -/
theorem setSampleTime_round_trip {V S : Type} (c : IterativeVelPIDController V S) (n : Nat)
    (hs : 0 < c.sampleTime) (hn : 0 < n) :
    setSampleTime (setSampleTime c n) c.sampleTime = c ∧
    (setSampleTime (setSampleTime c n) c.sampleTime).kD = c.kD ∧
    (setSampleTime (setSampleTime c n) c.sampleTime).sampleTime = c.sampleTime := by
  have hs1 : (c.sampleTime : ℚ) ≠ 0 := by exact_mod_cast (Nat.pos_iff_ne_zero.mp hs)
  have hn1 : (n : ℚ) ≠ 0 := by exact_mod_cast (Nat.pos_iff_ne_zero.mp hn)
  have hkD : c.kD / ((n : ℚ) / (c.sampleTime : ℚ)) / ((c.sampleTime : ℚ) / (n : ℚ)) = c.kD := by
    field_simp
  have h : setSampleTime (setSampleTime c n) c.sampleTime = c := by
    simp only [setSampleTime, gt_iff_lt, hn, hs, if_true, hkD]
  exact ⟨h, by rw [h], by rw [h]⟩

/-- Witness of C7: the demo controller (period 10, stored `kD = 1/2`) is restored by
`setSampleTime(20)` followed by `setSampleTime(10)`. -/
theorem setSampleTime_round_trip_witness :
    0 < demo.sampleTime ∧ 0 < 20 ∧
    (setSampleTime (setSampleTime demo 20) demo.sampleTime).kD = demo.kD ∧
    (setSampleTime (setSampleTime demo 20) demo.sampleTime).sampleTime = demo.sampleTime :=
  ⟨by decide, by decide, (setSampleTime_round_trip demo 20 (by decide) (by decide)).2⟩

/-- C8: for every controller with sample period `s > 0` and every `n > 0`,
`setSampleTime(n)` sets the stored `kD` to `kD * s / n` and the sample period to `n`
(so `getSampleTime()` returns `n`) and changes no other field. -/
theorem setSampleTime_rescales {V S : Type} (c : IterativeVelPIDController V S) (n : Nat)
    (hs : 0 < c.sampleTime) (hn : 0 < n) :
    setSampleTime c n =
      { c with kD := c.kD * (c.sampleTime : ℚ) / (n : ℚ), sampleTime := n } ∧
    getSampleTime (setSampleTime c n) = n := by
  have hs1 : (c.sampleTime : ℚ) ≠ 0 := by exact_mod_cast (Nat.pos_iff_ne_zero.mp hs)
  have hn1 : (n : ℚ) ≠ 0 := by exact_mod_cast (Nat.pos_iff_ne_zero.mp hn)
  have hkD : c.kD / ((n : ℚ) / (c.sampleTime : ℚ)) = c.kD * (c.sampleTime : ℚ) / (n : ℚ) := by
    field_simp
  simp only [setSampleTime, getSampleTime, gt_iff_lt, hn, if_true, hkD, and_self]

/-- Witness of C8: on the demo controller (period 10, stored `kD = 1/2`),
`setSampleTime(20)` stores `kD = 1/4` and the period 20. -/
theorem setSampleTime_rescales_witness :
    0 < demo.sampleTime ∧ 0 < 20 ∧
    (setSampleTime demo 20).kD = 1 / 4 ∧ getSampleTime (setSampleTime demo 20) = 20 := by
  refine ⟨by decide, by decide, ?_, ?_⟩
  · rw [(setSampleTime_rescales demo 20 (by decide) (by decide)).1]
    norm_num [demo]
  · exact (setSampleTime_rescales demo 20 (by decide) (by decide)).2

/-- C9: `setSampleTime(0)` is a no-op: the controller after the call, the stored `kD` and
the sample period included, is the controller before the call. -/
theorem setSampleTime_zero {V S : Type} (c : IterativeVelPIDController V S) :
    setSampleTime c 0 = c := by
  simp [setSampleTime]

/-- C10, the code at the failing input: from sample period 10, `setGains(1, 1)` followed
by `setSampleTime(20)` stores `kD = 1/200`, whereas `setSampleTime(20)` followed by
`setGains(1, 1)` stores `kD = 1 * 20 / 1000 = 1/50`. -/
theorem setGains_setSampleTime_diverge :
    demo.sampleTime = 10 ∧
    (setSampleTime (setGains demo 1 1) 20).kD = 1 / 200 ∧
    (setGains (setSampleTime demo 20) 1 1).kD = 1 / 50 ∧
    (setSampleTime (setGains demo 1 1) 20).kD ≠ (setGains (setSampleTime demo 20) 1 1).kD := by
  norm_num [setSampleTime, setGains, demo]

/-- C11: for all `kP`, `kD` and every controller with sample period `s`, `setGains(kP, kD)`
stores the proportional gain `kP` and the derivative gain `kD * s / 1000` and changes no
other field; the constructor taking the collaborators is `setGains` applied to the
member-initialised object, so it stores the gains `kP` and `kD * s / 1000` for the
default sample period `s`, and the collaborators passed in. -/
theorem setGains_stores {V S : Type} (c : IterativeVelPIDController V S) (ikP ikD : ℚ)
    (d : MemberDefaults) (ivelMath : V) (iloopDtTimer : Timer) (isettledUtil : S) :
    setGains c ikP ikD = { c with kP := ikP, kD := ikD * (c.sampleTime : ℚ) / 1000 } ∧
    (setGains c ikP ikD).kP = ikP ∧
    (setGains c ikP ikD).kD = ikD * (c.sampleTime : ℚ) / 1000 ∧
    (construct d ikP ikD ivelMath iloopDtTimer isettledUtil).kP = ikP ∧
    (construct d ikP ikD ivelMath iloopDtTimer isettledUtil).kD =
      ikD * (d.sampleTime : ℚ) / 1000 ∧
    construct d ikP ikD ivelMath iloopDtTimer isettledUtil =
      { kP := ikP,
        kD := ikD * (d.sampleTime : ℚ) / 1000,
        sampleTime := d.sampleTime,
        error := d.error,
        lastError := d.lastError,
        derivative := d.derivative,
        target := d.target,
        output := d.output,
        outputMax := d.outputMax,
        outputMin := d.outputMin,
        isOn := d.isOn,
        velMath := ivelMath,
        loopDtTimer := iloopDtTimer,
        settledUtil := isettledUtil } :=
  ⟨rfl, rfl, rfl, rfl, rfl, rfl⟩

/-- C13: for every controller, `reset()` sets error, lastError and output to 0 and leaves
target, `kP`, `kD`, `outputMin`, `outputMax`, the sample period and the enabled flag (and
the derivative, the estimator, the timer and the settling predicate) unchanged. -/
theorem reset_frame {V S : Type} (c : IterativeVelPIDController V S) :
    (reset c).error = 0 ∧ (reset c).lastError = 0 ∧ (reset c).output = 0 ∧
    (reset c).target = c.target ∧ (reset c).kP = c.kP ∧ (reset c).kD = c.kD ∧
    (reset c).outputMin = c.outputMin ∧ (reset c).outputMax = c.outputMax ∧
    (reset c).sampleTime = c.sampleTime ∧ (reset c).isOn = c.isOn ∧
    (reset c).derivative = c.derivative ∧ (reset c).velMath = c.velMath ∧
    (reset c).loopDtTimer = c.loopDtTimer ∧ (reset c).settledUtil = c.settledUtil :=
  ⟨rfl, rfl, rfl, rfl, rfl, rfl, rfl, rfl, rfl, rfl, rfl, rfl, rfl, rfl⟩

/-! ## Accepted samples along a run -/

/-- The output stored by an accepted sample. -/
theorem step_output_of_accepted {V S : Type} (vm : VelMath V) (su : SettledUtil S)
    (c : IterativeVelPIDController V S) (reading : ℚ) (now : Nat)
    (h : accepted c now = true) :
    (step vm su c reading now).1.output =
      clamp (c.output + increment vm c reading) c.outputMin c.outputMax ∧
    (step vm su c reading now).2 = (step vm su c reading now).1.output ∧
    (step vm su c reading now).1.derivative = vm.getAccel (vm.step c.velMath reading).1 := by
  simp only [accepted, Bool.and_eq_true, decide_eq_true_eq] at h
  obtain ⟨hOn, hDt⟩ := h
  simp only [step, stepVel, hOn, if_true, Timer.clearHardMark, increment]
  rw [if_pos hDt]
  exact ⟨rfl, rfl, rfl⟩

/-- A call that is not an accepted sample leaves the stored output as it is. -/
theorem step_output_of_not_accepted {V S : Type} (vm : VelMath V) (su : SettledUtil S)
    (c : IterativeVelPIDController V S) (reading : ℚ) (now : Nat)
    (h : accepted c now = false) :
    (step vm su c reading now).1.output = c.output := by
  cases hOn : c.isOn with
  | false => rw [step_of_off vm su c reading now hOn]
  | true =>
    have hDt : (c.loopDtTimer.placeHardMark now).getDtFromHardMark now < c.sampleTime := by
      simp only [accepted, hOn, Bool.true_and, decide_eq_false_iff_not, not_le] at h
      exact h
    rw [step_of_lt vm su c reading now hOn hDt]

/-- The members `step` never assigns: gains, target, sample period, limits, enabled flag. -/
theorem step_params {V S : Type} (vm : VelMath V) (su : SettledUtil S)
    (c : IterativeVelPIDController V S) (reading : ℚ) (now : Nat) :
    (step vm su c reading now).1.kP = c.kP ∧
    (step vm su c reading now).1.kD = c.kD ∧
    (step vm su c reading now).1.target = c.target ∧
    (step vm su c reading now).1.sampleTime = c.sampleTime ∧
    (step vm su c reading now).1.outputMin = c.outputMin ∧
    (step vm su c reading now).1.outputMax = c.outputMax ∧
    (step vm su c reading now).1.isOn = c.isOn := by
  cases hOn : c.isOn with
  | false => rw [step_of_off vm su c reading now hOn]; exact ⟨rfl, rfl, rfl, rfl, rfl, rfl, hOn⟩
  | true =>
    by_cases hDt : (c.loopDtTimer.placeHardMark now).getDtFromHardMark now ≥ c.sampleTime
    · simp only [step, stepVel, hOn, if_true, Timer.clearHardMark]
      rw [if_pos hDt]
      exact ⟨rfl, rfl, rfl, rfl, rfl, rfl, rfl⟩
    · rw [step_of_lt vm su c reading now hOn (not_le.mp hDt)]
      exact ⟨rfl, rfl, rfl, rfl, rfl, rfl, hOn⟩

/-- Clamping ten more than `min (10 * j) hi` gives `min (10 * (j + 1)) hi` when the
limits enclose zero. -/
theorem clamp_ramp (j : Nat) (lo hi : ℚ) (hlo : lo ≤ 0) (hhi : 0 ≤ hi) :
    clamp (min (10 * (j : ℚ)) hi + 10) lo hi = min (10 * ((j + 1 : Nat) : ℚ)) hi := by
  have hj : (0 : ℚ) ≤ (j : ℚ) := Nat.cast_nonneg j
  push_cast
  unfold clamp
  rcases le_total (10 * (j : ℚ)) hi with h | h
  · rw [min_eq_left h]
    split_ifs with h1 h2
    · linarith
    · rw [min_eq_right (by linarith)]
    · rw [min_eq_left (by linarith)]; ring
  · rw [min_eq_right h]
    split_ifs with h1 h2
    · linarith
    · rw [min_eq_right (by linarith)]
    · linarith

/-- The ramp of C12 from any point: a controller with `kP = 1`, `kD = 0`, target 10 and
limits enclosing zero whose output is `min (10 * j) outputMax` holds
`min (10 * (j + k)) outputMax` after a run with `k` accepted samples, when the estimator
reports velocity 0 at every sample. -/
theorem stepMany_ramp {V S : Type} (vm : VelMath V) (su : SettledUtil S)
    (hvel : ∀ v r, vm.getVelocity (vm.step v r).1 = 0) (calls : List (ℚ × Nat)) :
    ∀ (c : IterativeVelPIDController V S) (j : Nat), c.kP = 1 → c.kD = 0 → c.target = 10 →
      c.outputMin ≤ 0 → 0 ≤ c.outputMax → c.output = min (10 * (j : ℚ)) c.outputMax →
      (stepMany vm su c calls).1.output =
        min (10 * ((j + acceptedCount vm su c calls : Nat) : ℚ)) c.outputMax ∧
      (stepMany vm su c calls).1.kP = 1 ∧ (stepMany vm su c calls).1.kD = 0 ∧
      (stepMany vm su c calls).1.target = 10 ∧
      (stepMany vm su c calls).1.outputMin = c.outputMin ∧
      (stepMany vm su c calls).1.outputMax = c.outputMax := by
  induction calls with
  | nil =>
    intro c j hkP hkD hT _ _ hO
    simp only [stepMany, acceptedCount, Nat.add_zero]
    exact ⟨hO, hkP, hkD, hT, trivial, trivial⟩
  | cons call rest ih =>
    intro c j hkP hkD hT hlo hhi hO
    obtain ⟨p1, p2, p3, _, p5, p6, _⟩ := step_params vm su c call.1 call.2
    simp only [stepMany, acceptedCount]
    cases hacc : accepted c call.2 with
    | true =>
      have hout := (step_output_of_accepted vm su c call.1 call.2 hacc).1
      have hinc : increment vm c call.1 = 10 := by
        simp only [increment, hkP, hkD, hT, hvel]; ring
      rw [hinc, hO, clamp_ramp j _ _ hlo hhi] at hout
      have := ih (step vm su c call.1 call.2).1 (j + 1) (by rw [p1, hkP]) (by rw [p2, hkD])
        (by rw [p3, hT]) (by rw [p5]; exact hlo) (by rw [p6]; exact hhi)
        (by rw [p6]; exact hout)
      rw [p5, p6] at this
      simp only [if_true]
      rw [show j + (1 + acceptedCount vm su (step vm su c call.1 call.2).1 rest)
        = j + 1 + acceptedCount vm su (step vm su c call.1 call.2).1 rest by omega]
      exact this
    | false =>
      have hout := step_output_of_not_accepted vm su c call.1 call.2 hacc
      have := ih (step vm su c call.1 call.2).1 j (by rw [p1, hkP]) (by rw [p2, hkD])
        (by rw [p3, hT]) (by rw [p5]; exact hlo) (by rw [p6]; exact hhi)
        (by rw [p6, hout]; exact hO)
      rw [p5, p6] at this
      simp only [Bool.false_eq_true, if_false, Nat.zero_add]
      exact this

/-- A value at or above the upper bound is clamped to the upper bound. -/
theorem clamp_of_ge (v lo hi : ℚ) (h : lo ≤ hi) (hv : hi ≤ v) : clamp v lo hi = hi := by
  unfold clamp
  split_ifs with h1 h2
  · linarith
  · rfl
  · linarith

/-- A value within the bounds is not clamped. -/
theorem clamp_of_mem (v lo hi : ℚ) (h1 : lo ≤ v) (h2 : v ≤ hi) : clamp v lo hi = v := by
  unfold clamp
  rw [if_neg (not_lt.mpr h1), if_neg (not_lt.mpr h2)]

/-- A value not below the lower bound is clamped to its minimum with the upper bound. -/
theorem clamp_eq_min (v lo hi : ℚ) (h : lo ≤ v) : clamp v lo hi = min v hi := by
  unfold clamp
  rw [if_neg (not_lt.mpr h)]
  split_ifs with h2
  · rw [min_eq_right (le_of_lt h2)]
  · rw [min_eq_left (not_lt.mp h2)]

/-- C12: for an enabled controller with `kP = 1`, `kD = 0`, target 10, stored output 0,
limits `outputMin ≤ 0 ≤ outputMax` and an estimator that reports velocity 0 at every
sample: after a run of `step` calls of which `n` are accepted samples the stored output is
`min (10 * n) outputMax`; and one more accepted sample stores
`min (output + 10) outputMax`, that is, raises the output by exactly 10 while the result
does not exceed `outputMax` and keeps it at `outputMax` afterwards. -/
theorem ramp_until_saturation {V S : Type} (vm : VelMath V) (su : SettledUtil S)
    (c : IterativeVelPIDController V S) (calls : List (ℚ × Nat))
    (_hOn : c.isOn = true) (hkP : c.kP = 1) (hkD : c.kD = 0) (hT : c.target = 10)
    (hO : c.output = 0) (hlo : c.outputMin ≤ 0) (hhi : 0 ≤ c.outputMax)
    (hvel : ∀ v r, vm.getVelocity (vm.step v r).1 = 0) :
    (stepMany vm su c calls).1.output =
      min (10 * (acceptedCount vm su c calls : ℚ)) c.outputMax ∧
    ∀ r now, accepted (stepMany vm su c calls).1 now = true →
      (step vm su (stepMany vm su c calls).1 r now).1.output =
        min ((stepMany vm su c calls).1.output + 10) c.outputMax := by
  have h0 : c.output = min (10 * ((0 : Nat) : ℚ)) c.outputMax := by
    rw [hO, Nat.cast_zero, mul_zero, min_eq_left hhi]
  obtain ⟨q1, q2, q3, q4, q5, q6⟩ := stepMany_ramp vm su hvel calls c 0 hkP hkD hT hlo hhi h0
  rw [Nat.zero_add] at q1
  refine ⟨q1, ?_⟩
  intro r now hacc
  have hout := (step_output_of_accepted vm su _ r now hacc).1
  have hinc : increment vm (stepMany vm su c calls).1 r = 10 := by
    simp only [increment, q2, q3, q4, hvel]; ring
  rw [hout, hinc, q5, q6]
  apply clamp_eq_min
  have hn : (0 : ℚ) ≤ 10 * (acceptedCount vm su c calls : ℚ) :=
    mul_nonneg (by norm_num) (Nat.cast_nonneg _)
  have : (0 : ℚ) ≤ (stepMany vm su c calls).1.output := by
    rw [q1]; exact le_min hn hhi
  linarith

/-- Witness of C12: the controller `ramp` (limits `[-25, 25]`, period 10, mark at 0) over
the estimator reporting velocity 0, stepped at clock readings 10, 15, 25, 30 and 40, takes
three accepted samples (at 10, 25 and 40) and holds `min (10 * 3) 25 = 25`. -/
theorem ramp_until_saturation_witness :
    ramp.isOn = true ∧ ramp.kP = 1 ∧ ramp.kD = 0 ∧ ramp.target = 10 ∧ ramp.output = 0 ∧
    ramp.outputMin ≤ 0 ∧ 0 ≤ ramp.outputMax ∧
    (∀ v r, zeroVelMath.getVelocity (zeroVelMath.step v r).1 = 0) ∧
    acceptedCount zeroVelMath countSettledUtil ramp
      [(0, 10), (0, 15), (0, 25), (0, 30), (0, 40)] = 3 ∧
    (stepMany zeroVelMath countSettledUtil ramp
      [(0, 10), (0, 15), (0, 25), (0, 30), (0, 40)]).1.output =
      min (10 * (acceptedCount zeroVelMath countSettledUtil ramp
        [(0, 10), (0, 15), (0, 25), (0, 30), (0, 40)] : ℚ)) ramp.outputMax :=
  ⟨rfl, rfl, rfl, rfl, rfl, by norm_num [ramp], by norm_num [ramp], fun _ _ => rfl,
    by norm_num [acceptedCount, accepted, step, stepVel, ramp, zeroVelMath, countSettledUtil,
      Timer.placeHardMark, Timer.getDtFromHardMark, Timer.clearHardMark, clamp],
    (ramp_until_saturation zeroVelMath countSettledUtil ramp
      [(0, 10), (0, 15), (0, 25), (0, 30), (0, 40)] rfl rfl rfl rfl rfl
      (by norm_num [ramp]) (by norm_num [ramp]) (fun _ _ => rfl)).1⟩

/-- C14: for two enabled controllers that differ in their targets `t1` and `t2` only, an
accepted step with the same reading (hence the same estimated velocity and acceleration)
stores the same derivative in both and, when neither result is clamped (both unclamped
sums lie within the limits), returns outputs that differ by exactly `kP * (t1 - t2)`,
whatever `kD` is. -/
theorem derivative_on_measurement {V S : Type} (vm : VelMath V) (su : SettledUtil S)
    (c : IterativeVelPIDController V S) (reading : ℚ) (now : Nat) (t1 t2 : ℚ)
    (hOn : c.isOn = true)
    (hDt : (c.loopDtTimer.placeHardMark now).getDtFromHardMark now ≥ c.sampleTime)
    (h1 : c.outputMin ≤ c.output + increment vm (setTarget c t1) reading ∧
      c.output + increment vm (setTarget c t1) reading ≤ c.outputMax)
    (h2 : c.outputMin ≤ c.output + increment vm (setTarget c t2) reading ∧
      c.output + increment vm (setTarget c t2) reading ≤ c.outputMax) :
    (step vm su (setTarget c t1) reading now).1.derivative =
      (step vm su (setTarget c t2) reading now).1.derivative ∧
    (step vm su (setTarget c t1) reading now).1.derivative =
      vm.getAccel (vm.step c.velMath reading).1 ∧
    (step vm su (setTarget c t1) reading now).2 -
      (step vm su (setTarget c t2) reading now).2 = c.kP * (t1 - t2) := by
  have hacc : ∀ t, accepted (setTarget c t) now = true := by
    intro t
    simp only [accepted, setTarget, hOn, Bool.true_and, decide_eq_true_eq]
    exact hDt
  obtain ⟨a1, a2, a3⟩ := step_output_of_accepted vm su (setTarget c t1) reading now (hacc t1)
  obtain ⟨b1, b2, b3⟩ := step_output_of_accepted vm su (setTarget c t2) reading now (hacc t2)
  refine ⟨by rw [a3, b3]; rfl, by rw [a3]; rfl, ?_⟩
  rw [a2, b2, a1, b1]
  have e1 := clamp_of_mem _ _ _ h1.1 h1.2
  have e2 := clamp_of_mem _ _ _ h2.1 h2.2
  simp only [setTarget] at e1 e2 ⊢
  rw [e1, e2]
  simp only [increment]
  ring

/-- Witness of C14: the marked demo controller (`kP = 1`, `kD = 1/2`) with targets 10 and
7, stepped at clock reading 10 with reading 5, returns `5/2` and `-1/2`, which differ by
`1 * (10 - 7)`. -/
theorem derivative_on_measurement_witness :
    demoMarked.isOn = true ∧
    (demoMarked.loopDtTimer.placeHardMark 10).getDtFromHardMark 10 ≥ demoMarked.sampleTime ∧
    (demoMarked.outputMin ≤
        demoMarked.output + increment diffVelMath (setTarget demoMarked 10) 5 ∧
      demoMarked.output + increment diffVelMath (setTarget demoMarked 10) 5 ≤
        demoMarked.outputMax) ∧
    (demoMarked.outputMin ≤
        demoMarked.output + increment diffVelMath (setTarget demoMarked 7) 5 ∧
      demoMarked.output + increment diffVelMath (setTarget demoMarked 7) 5 ≤
        demoMarked.outputMax) ∧
    (step diffVelMath countSettledUtil (setTarget demoMarked 10) 5 10).2 -
      (step diffVelMath countSettledUtil (setTarget demoMarked 7) 5 10).2 =
        demoMarked.kP * (10 - 7) :=
  have h1 : demoMarked.outputMin ≤
        demoMarked.output + increment diffVelMath (setTarget demoMarked 10) 5 ∧
      demoMarked.output + increment diffVelMath (setTarget demoMarked 10) 5 ≤
        demoMarked.outputMax := by
    norm_num [increment, setTarget, demoMarked, demo, diffVelMath]
  have h2 : demoMarked.outputMin ≤
        demoMarked.output + increment diffVelMath (setTarget demoMarked 7) 5 ∧
      demoMarked.output + increment diffVelMath (setTarget demoMarked 7) 5 ≤
        demoMarked.outputMax := by
    norm_num [increment, setTarget, demoMarked, demo, diffVelMath]
  ⟨rfl, by decide, h1, h2,
    (derivative_on_measurement diffVelMath countSettledUtil demoMarked 5 10 10 7 rfl
      (by decide) h1 h2).2.2⟩

/-- Along a run in which every accepted sample saturates, with ordered limits, the limits
are kept, the output is untouched while no sample is accepted, and it is `outputMax` as
soon as one sample has been accepted. -/
theorem stepMany_saturated {V S : Type} (vm : VelMath V) (su : SettledUtil S)
    (calls : List (ℚ × Nat)) :
    ∀ c : IterativeVelPIDController V S, c.outputMin ≤ c.outputMax →
      allAcceptedSaturate vm su c calls = true →
      (stepMany vm su c calls).1.outputMin = c.outputMin ∧
      (stepMany vm su c calls).1.outputMax = c.outputMax ∧
      (acceptedCount vm su c calls = 0 → (stepMany vm su c calls).1.output = c.output) ∧
      (1 ≤ acceptedCount vm su c calls →
        (stepMany vm su c calls).1.output = c.outputMax) := by
  induction calls with
  | nil =>
    intro c _ _
    simp [stepMany, acceptedCount]
  | cons call rest ih =>
    intro c hLim hsat
    obtain ⟨_, _, _, _, p5, p6, _⟩ := step_params vm su c call.1 call.2
    simp only [allAcceptedSaturate, Bool.and_eq_true, Bool.or_eq_true, Bool.not_eq_true',
      decide_eq_true_eq] at hsat
    obtain ⟨hhead, htail⟩ := hsat
    obtain ⟨i1, i2, i3, i4⟩ := ih (step vm su c call.1 call.2).1
      (by rw [p5, p6]; exact hLim) htail
    simp only [stepMany, acceptedCount]
    cases hacc : accepted c call.2 with
    | true =>
      have hge : c.outputMax ≤ c.output + increment vm c call.1 := by
        rcases hhead with h | h
        · rw [hacc] at h; cases h
        · exact h
      have hout : (step vm su c call.1 call.2).1.output = c.outputMax := by
        rw [(step_output_of_accepted vm su c call.1 call.2 hacc).1]
        exact clamp_of_ge _ _ _ hLim hge
      refine ⟨by rw [i1, p5], by rw [i2, p6], ?_, ?_⟩
      · intro h; simp at h
      · intro _
        rcases Nat.eq_zero_or_pos
          (acceptedCount vm su (step vm su c call.1 call.2).1 rest) with h | h
        · rw [i3 h, hout]
        · rw [i4 h, p6]
    | false =>
      have hout := step_output_of_not_accepted vm su c call.1 call.2 hacc
      simp only [Bool.false_eq_true, if_false, Nat.zero_add]
      refine ⟨by rw [i1, p5], by rw [i2, p6], ?_, ?_⟩
      · intro h; rw [i3 h, hout]
      · intro h; rw [i4 h, p6]

/-- C15: for an enabled controller with `outputMin ≤ outputMax`, after a run of `step`
calls with at least one accepted sample in which every accepted sample saturates (output
plus increment `kP*error - kD*derivative` reaches `outputMax`), the stored output is
`outputMax`, however many samples were accepted; and a following accepted sample with
increment `d`, `outputMin - outputMax ≤ d < 0`, stores exactly `outputMax + d`. -/
theorem saturation_holds_no_windup {V S : Type} (vm : VelMath V) (su : SettledUtil S)
    (c : IterativeVelPIDController V S) (calls : List (ℚ × Nat))
    (_hOn : c.isOn = true) (hLim : c.outputMin ≤ c.outputMax)
    (hk : 1 ≤ acceptedCount vm su c calls)
    (hsat : allAcceptedSaturate vm su c calls = true) :
    (stepMany vm su c calls).1.output = c.outputMax ∧
    ∀ r now, accepted (stepMany vm su c calls).1 now = true →
      c.outputMin - c.outputMax ≤ increment vm (stepMany vm su c calls).1 r →
      increment vm (stepMany vm su c calls).1 r < 0 →
      (step vm su (stepMany vm su c calls).1 r now).1.output =
        c.outputMax + increment vm (stepMany vm su c calls).1 r := by
  obtain ⟨s1, s2, _, s4⟩ := stepMany_saturated vm su calls c hLim hsat
  refine ⟨s4 hk, ?_⟩
  intro r now hacc hd1 hd2
  rw [(step_output_of_accepted vm su _ r now hacc).1, s1, s2, s4 hk]
  exact clamp_of_mem _ _ _ (by linarith) (by linarith)

/-- Witness of C15: the controller `demoTight` (limits `[-5, 5]`, target 10, `kP = 1`,
`kD = 1/2`, mark at 0) stepped with reading 0 at clock readings 10, 20, 30 and 35 takes
two accepted samples (at 10 and 30) of increment 10, both saturating, and holds 5; the
sample accepted at clock reading 45 with reading 12 has increment
`1 * (10 - 12) - (1/2) * 12 = -8` and stores `5 - 8 = -3`. -/
theorem saturation_holds_no_windup_witness :
    demoTight.isOn = true ∧ demoTight.outputMin ≤ demoTight.outputMax ∧
    1 ≤ acceptedCount diffVelMath countSettledUtil demoTight
      [(0, 10), (0, 20), (0, 30), (0, 35)] ∧
    allAcceptedSaturate diffVelMath countSettledUtil demoTight
      [(0, 10), (0, 20), (0, 30), (0, 35)] = true ∧
    (stepMany diffVelMath countSettledUtil demoTight
      [(0, 10), (0, 20), (0, 30), (0, 35)]).1.output = demoTight.outputMax ∧
    demoTight.outputMax = 5 ∧
    increment diffVelMath (stepMany diffVelMath countSettledUtil demoTight
      [(0, 10), (0, 20), (0, 30), (0, 35)]).1 12 = -8 ∧
    (step diffVelMath countSettledUtil (stepMany diffVelMath countSettledUtil demoTight
      [(0, 10), (0, 20), (0, 30), (0, 35)]).1 12 45).1.output =
        demoTight.outputMax + increment diffVelMath (stepMany diffVelMath countSettledUtil
          demoTight [(0, 10), (0, 20), (0, 30), (0, 35)]).1 12 :=
  have hLim : demoTight.outputMin ≤ demoTight.outputMax := by
    norm_num [demoTight, setOutputLimits, demoMarked, demo]
  have hk : 1 ≤ acceptedCount diffVelMath countSettledUtil demoTight
      [(0, 10), (0, 20), (0, 30), (0, 35)] := by
    norm_num [acceptedCount, accepted, step, stepVel, demoTight, setOutputLimits,
      demoMarked, demo, diffVelMath, countSettledUtil, Timer.placeHardMark,
      Timer.getDtFromHardMark, Timer.clearHardMark, clamp]
  have hsat : allAcceptedSaturate diffVelMath countSettledUtil demoTight
      [(0, 10), (0, 20), (0, 30), (0, 35)] = true := by
    norm_num [allAcceptedSaturate, increment, accepted, step, stepVel, demoTight,
      setOutputLimits, demoMarked, demo, diffVelMath, countSettledUtil,
      Timer.placeHardMark, Timer.getDtFromHardMark, Timer.clearHardMark, clamp]
  have hinc : increment diffVelMath (stepMany diffVelMath countSettledUtil demoTight
      [(0, 10), (0, 20), (0, 30), (0, 35)]).1 12 = -8 := by
    norm_num [increment, stepMany, step, stepVel, demoTight, setOutputLimits,
      demoMarked, demo, diffVelMath, countSettledUtil, Timer.placeHardMark,
      Timer.getDtFromHardMark, Timer.clearHardMark, clamp]
  have hacc : accepted (stepMany diffVelMath countSettledUtil demoTight
      [(0, 10), (0, 20), (0, 30), (0, 35)]).1 45 = true := by
    norm_num [accepted, stepMany, step, stepVel, demoTight, setOutputLimits,
      demoMarked, demo, diffVelMath, countSettledUtil, Timer.placeHardMark,
      Timer.getDtFromHardMark, Timer.clearHardMark, clamp]
  have hmax : demoTight.outputMax = 5 := by
    norm_num [demoTight, setOutputLimits, demoMarked, demo]
  have hmin : demoTight.outputMin = -5 := by
    norm_num [demoTight, setOutputLimits, demoMarked, demo]
  ⟨rfl, hLim, hk, hsat,
    (saturation_holds_no_windup diffVelMath countSettledUtil demoTight
      [(0, 10), (0, 20), (0, 30), (0, 35)] rfl hLim hk hsat).1,
    hmax, hinc,
    (saturation_holds_no_windup diffVelMath countSettledUtil demoTight
      [(0, 10), (0, 20), (0, 30), (0, 35)] rfl hLim hk hsat).2 12 45 hacc
      (by rw [hinc, hmax, hmin]; norm_num) (by rw [hinc]; norm_num)⟩

/-! ## Invariants over the operations -/

/-- One operation keeps the limits ordered: `setOutputLimits` stores ordered limits
whatever its arguments are, and no other operation assigns a limit. -/
theorem applyOp_limits {V S : Type} (vm : VelMath V) (su : SettledUtil S)
    (c : IterativeVelPIDController V S) (op : Op) :
    (∀ a b, op = Op.setOutputLimits a b →
      (applyOp vm su c op).outputMin ≤ (applyOp vm su c op).outputMax) ∧
    ((∀ a b, op ≠ Op.setOutputLimits a b) →
      (applyOp vm su c op).outputMin = c.outputMin ∧
      (applyOp vm su c op).outputMax = c.outputMax) := by
  constructor
  · intro a b e
    subst e
    simp only [applyOp]
    rw [setOutputLimits_eq]
    exact min_le_max
  · intro hne
    cases op with
    | setGains ikP ikD => exact ⟨rfl, rfl⟩
    | setSampleTime isampleTime =>
      simp only [applyOp, setSampleTime]
      split_ifs <;> exact ⟨rfl, rfl⟩
    | setOutputLimits imax imin => exact absurd rfl (hne imax imin)
    | stepVel inewReading => exact ⟨rfl, rfl⟩
    | step inewReading now =>
      obtain ⟨_, _, _, _, p5, p6, _⟩ := step_params vm su c inewReading now
      exact ⟨p5, p6⟩
    | setTarget itarget => exact ⟨rfl, rfl⟩
    | isSettled => exact ⟨rfl, rfl⟩
    | reset => exact ⟨rfl, rfl⟩
    | flipDisable => exact ⟨rfl, rfl⟩
    | flipDisableTo iisDisabled => exact ⟨rfl, rfl⟩
    | setTicksPerRev tpr => exact ⟨rfl, rfl⟩

/-- One operation keeps ordered limits ordered. -/
theorem applyOp_limits_ordered {V S : Type} (vm : VelMath V) (su : SettledUtil S)
    (c : IterativeVelPIDController V S) (op : Op) (h : c.outputMin ≤ c.outputMax) :
    (applyOp vm su c op).outputMin ≤ (applyOp vm su c op).outputMax := by
  by_cases hop : ∃ a b, op = Op.setOutputLimits a b
  · obtain ⟨a, b, e⟩ := hop
    exact (applyOp_limits vm su c op).1 a b e
  · have hne : ∀ a b, op ≠ Op.setOutputLimits a b := fun a b e => hop ⟨a, b, e⟩
    obtain ⟨e1, e2⟩ := (applyOp_limits vm su c op).2 hne
    rw [e1, e2]
    exact h

/-- C17: starting from `outputMin ≤ outputMax`, the limits are ordered after every
sequence of operations with any arguments, so the bounds of the `clamp` call in `step`
are ordered whenever it executes; the limits `setOutputLimits` stores and passes to its
`clamp` call are ordered for every argument pair; and an operation other than
`setOutputLimits` leaves both limits as they are. -/
theorem limits_ordered_invariant {V S : Type} (vm : VelMath V) (su : SettledUtil S)
    (c : IterativeVelPIDController V S) (ops : List Op) (h : c.outputMin ≤ c.outputMax) :
    (applyOps vm su c ops).outputMin ≤ (applyOps vm su c ops).outputMax ∧
    (∀ a b, (setOutputLimits (applyOps vm su c ops) a b).outputMin ≤
      (setOutputLimits (applyOps vm su c ops) a b).outputMax) ∧
    (∀ op, (∀ a b, op ≠ Op.setOutputLimits a b) →
      (applyOp vm su (applyOps vm su c ops) op).outputMin =
        (applyOps vm su c ops).outputMin ∧
      (applyOp vm su (applyOps vm su c ops) op).outputMax =
        (applyOps vm su c ops).outputMax) := by
  refine ⟨?_, ?_, ?_⟩
  · induction ops generalizing c with
    | nil => exact h
    | cons op rest ih => exact ih (applyOp vm su c op) (applyOp_limits_ordered vm su c op h)
  · intro a b
    rw [setOutputLimits_eq]
    exact min_le_max
  · intro op hne
    exact (applyOp_limits vm su _ op).2 hne

/-- Witness of C17: from the demo controller (limits `[-127, 127]`), after
`setOutputLimits(-3, 4)`, `reset()`, `setGains(2, 1)` and a `step`, the limits are `-3`
and `4`, in this order. -/
theorem limits_ordered_invariant_witness :
    demo.outputMin ≤ demo.outputMax ∧
    (applyOps diffVelMath countSettledUtil demo
      [Op.setOutputLimits (-3) 4, Op.reset, Op.setGains 2 1, Op.step 1 0]).outputMin = -3 ∧
    (applyOps diffVelMath countSettledUtil demo
      [Op.setOutputLimits (-3) 4, Op.reset, Op.setGains 2 1, Op.step 1 0]).outputMax = 4 ∧
    (applyOps diffVelMath countSettledUtil demo
      [Op.setOutputLimits (-3) 4, Op.reset, Op.setGains 2 1, Op.step 1 0]).outputMin ≤
    (applyOps diffVelMath countSettledUtil demo
      [Op.setOutputLimits (-3) 4, Op.reset, Op.setGains 2 1, Op.step 1 0]).outputMax :=
  ⟨by norm_num [demo],
    by norm_num [applyOps, applyOp, step, stepVel, setGains, reset, setOutputLimits, demo,
      diffVelMath, countSettledUtil, Timer.placeHardMark, Timer.getDtFromHardMark,
      Timer.clearHardMark, clamp],
    by norm_num [applyOps, applyOp, step, stepVel, setGains, reset, setOutputLimits, demo,
      diffVelMath, countSettledUtil, Timer.placeHardMark, Timer.getDtFromHardMark,
      Timer.clearHardMark, clamp],
    (limits_ordered_invariant diffVelMath countSettledUtil demo
      [Op.setOutputLimits (-3) 4, Op.reset, Op.setGains 2 1, Op.step 1 0]
      (by norm_num [demo])).1⟩

/-- One operation keeps the sample period positive: only `setSampleTime` assigns it, and
only a positive value. -/
theorem applyOp_sampleTime_pos {V S : Type} (vm : VelMath V) (su : SettledUtil S)
    (c : IterativeVelPIDController V S) (op : Op) (h : 0 < c.sampleTime) :
    0 < (applyOp vm su c op).sampleTime := by
  cases op with
  | setGains ikP ikD => exact h
  | setSampleTime isampleTime =>
    simp only [applyOp, setSampleTime]
    split_ifs with hn
    · exact hn
    · exact h
  | setOutputLimits imax imin => exact h
  | stepVel inewReading => exact h
  | step inewReading now =>
    obtain ⟨_, _, _, p4, _, _, _⟩ := step_params vm su c inewReading now
    simp only [applyOp]
    rw [p4]
    exact h
  | setTarget itarget => exact h
  | isSettled => exact h
  | reset => exact h
  | flipDisable => exact h
  | flipDisableTo iisDisabled => exact h
  | setTicksPerRev tpr => exact h

/-- C18: starting from a sample period `> 0`, the sample period is `> 0` after every
sequence of operations with any arguments; hence whenever the division in `setSampleTime`
executes (its argument `n` is `> 0`), the stored period converted to `double` is not
zero and the divisor `double(n) / double(sampleTime)` is not zero. -/
theorem sampleTime_positive_invariant {V S : Type} (vm : VelMath V) (su : SettledUtil S)
    (c : IterativeVelPIDController V S) (ops : List Op) (h : 0 < c.sampleTime) :
    0 < (applyOps vm su c ops).sampleTime ∧
    ∀ n : Nat, 0 < n →
      ((applyOps vm su c ops).sampleTime : ℚ) ≠ 0 ∧
      (n : ℚ) / ((applyOps vm su c ops).sampleTime : ℚ) ≠ 0 := by
  have hpos : 0 < (applyOps vm su c ops).sampleTime := by
    induction ops generalizing c with
    | nil => exact h
    | cons op rest ih => exact ih (applyOp vm su c op) (applyOp_sampleTime_pos vm su c op h)
  refine ⟨hpos, ?_⟩
  intro n hn
  have h1 : ((applyOps vm su c ops).sampleTime : ℚ) ≠ 0 := by
    exact_mod_cast (Nat.pos_iff_ne_zero.mp hpos)
  have h2 : (n : ℚ) ≠ 0 := by exact_mod_cast (Nat.pos_iff_ne_zero.mp hn)
  exact ⟨h1, div_ne_zero h2 h1⟩

/-- Witness of C18: from the demo controller (period 10), after `setSampleTime(0)`,
`setSampleTime(20)`, `reset()`, a `step` and `setSampleTime(0)` the period is 20. -/
theorem sampleTime_positive_invariant_witness :
    0 < demo.sampleTime ∧
    (applyOps diffVelMath countSettledUtil demo
      [Op.setSampleTime 0, Op.setSampleTime 20, Op.reset, Op.step 1 0,
        Op.setSampleTime 0]).sampleTime = 20 ∧
    0 < (applyOps diffVelMath countSettledUtil demo
      [Op.setSampleTime 0, Op.setSampleTime 20, Op.reset, Op.step 1 0,
        Op.setSampleTime 0]).sampleTime :=
  ⟨by decide,
    by norm_num [applyOps, applyOp, step, stepVel, setSampleTime, reset, demo,
      diffVelMath, countSettledUtil, Timer.placeHardMark, Timer.getDtFromHardMark,
      Timer.clearHardMark, clamp],
    (sampleTime_positive_invariant diffVelMath countSettledUtil demo
      [Op.setSampleTime 0, Op.setSampleTime 20, Op.reset, Op.step 1 0,
        Op.setSampleTime 0] (by decide)).1⟩

/-! ## The range of the output over `double` values -/

/-- An operand of a true `<=` is not NaN. -/
theorem dbl_le_ne_nan (a b : dbl.Double) (h : dbl.Double.le a b = true) :
    a ≠ dbl.Double.nan ∧ b ≠ dbl.Double.nan := by
  cases a <;> cases b <;> simp [dbl.Double.le] at h ⊢

/-- A value that is not NaN is `<=` itself. -/
theorem dbl_le_refl (a : dbl.Double) (h : a ≠ dbl.Double.nan) :
    dbl.Double.le a a = true := by
  cases a <;> simp [dbl.Double.le] at h ⊢

/-- A true `<` gives `<=`. -/
theorem dbl_le_of_lt (a b : dbl.Double) (h : dbl.Double.lt a b = true) :
    dbl.Double.le a b = true := by
  cases a <;> cases b <;> simp [dbl.Double.lt, dbl.Double.le, dbl.Double.toRat] at h ⊢ <;>
    exact le_of_lt h

/-- Between values that are not NaN, a false `<` gives the converse `<=`. -/
theorem dbl_le_of_not_lt (a b : dbl.Double) (ha : a ≠ dbl.Double.nan)
    (hb : b ≠ dbl.Double.nan) (h : dbl.Double.lt a b = false) :
    dbl.Double.le b a = true := by
  cases a <;> cases b <;>
    simp [dbl.Double.lt, dbl.Double.le, dbl.Double.toRat] at h ha hb ⊢ <;> exact h

/-- The operator `<=` is transitive. -/
theorem dbl_le_trans (a b c : dbl.Double) (h1 : dbl.Double.le a b = true)
    (h2 : dbl.Double.le b c = true) : dbl.Double.le a c = true := by
  cases a <;> cases b <;> cases c <;>
    simp [dbl.Double.le, dbl.Double.toRat] at h1 h2 ⊢ <;> linarith

/-- `std::clamp` returns a NaN value unchanged. -/
theorem dbl_clamp_nan (lo hi : dbl.Double) :
    dbl.clamp dbl.Double.nan lo hi = dbl.Double.nan := by
  cases lo <;> cases hi <;> simp [dbl.clamp, dbl.Double.lt]

/-- `std::clamp` of a value that is not NaN lies within ordered bounds. -/
theorem dbl_clamp_mem (v lo hi : dbl.Double) (hv : v ≠ dbl.Double.nan)
    (h : dbl.Double.le lo hi = true) :
    dbl.Double.le lo (dbl.clamp v lo hi) = true ∧
    dbl.Double.le (dbl.clamp v lo hi) hi = true := by
  obtain ⟨hlo, hhi⟩ := dbl_le_ne_nan lo hi h
  unfold dbl.clamp
  cases h1 : dbl.Double.lt v lo with
  | true => simp only [if_true]; exact ⟨dbl_le_refl lo hlo, h⟩
  | false =>
    cases h2 : dbl.Double.lt hi v with
    | true => simp only [Bool.false_eq_true, if_false, if_true]; exact ⟨h, dbl_le_refl hi hhi⟩
    | false =>
      simp only [Bool.false_eq_true, if_false]
      exact ⟨dbl_le_of_not_lt v lo hv hlo h1, dbl_le_of_not_lt hi v hhi hv h2⟩

/-- `std::clamp` with ordered bounds returns NaN or a value within the bounds. -/
theorem dbl_clamp_nan_or_mem (v lo hi : dbl.Double) (h : dbl.Double.le lo hi = true) :
    dbl.clamp v lo hi = dbl.Double.nan ∨
    (dbl.Double.le lo (dbl.clamp v lo hi) = true ∧
      dbl.Double.le (dbl.clamp v lo hi) hi = true) := by
  by_cases hv : v = dbl.Double.nan
  · left; rw [hv]; exact dbl_clamp_nan lo hi
  · right; exact dbl_clamp_mem v lo hi hv h

/-- The limits stored by `setOutputLimits` for arguments that are not NaN are the smaller
and the larger argument, in this order. -/
theorem dbl_setOutputLimits_limits {V S : Type} (c : dbl.IterativeVelPIDController V S)
    (a b : dbl.Double) (ha : a ≠ dbl.Double.nan) (hb : b ≠ dbl.Double.nan) :
    dbl.IterativeVelPIDController.setOutputLimits c a b =
      { c with
        outputMax := dbl.Double.max a b,
        outputMin := dbl.Double.min a b,
        output := dbl.clamp c.output (dbl.Double.min a b) (dbl.Double.max a b) } ∧
    dbl.Double.le (dbl.Double.min a b) (dbl.Double.max a b) = true := by
  refine ⟨rfl, ?_⟩
  unfold dbl.Double.min dbl.Double.max
  cases h : dbl.Double.lt a b with
  | true => simp only [if_true]; exact dbl_le_of_lt a b h
  | false => simp only [Bool.false_eq_true, if_false]; exact dbl_le_of_not_lt a b ha hb h

/-- What `step` does to the output and the limits: the limits and the enabled flag are
kept; the stored output is kept, or it is `std::clamp` of the sum of the accepted sample;
an enabled controller returns the stored output. -/
theorem dbl_step_output {V S : Type} (ar : dbl.Arith) (vm : dbl.VelMath V)
    (su : dbl.SettledUtil S) (c : dbl.IterativeVelPIDController V S) (reading : dbl.Double)
    (now : Nat) :
    (dbl.IterativeVelPIDController.step ar vm su c reading now).1.outputMin = c.outputMin ∧
    (dbl.IterativeVelPIDController.step ar vm su c reading now).1.outputMax = c.outputMax ∧
    (dbl.IterativeVelPIDController.step ar vm su c reading now).1.isOn = c.isOn ∧
    ((dbl.IterativeVelPIDController.step ar vm su c reading now).1.output = c.output ∨
      (dbl.IterativeVelPIDController.step ar vm su c reading now).1.output =
        dbl.clamp (dbl.IterativeVelPIDController.unclamped ar vm c reading)
          c.outputMin c.outputMax) ∧
    (c.isOn = true →
      (dbl.IterativeVelPIDController.step ar vm su c reading now).2 =
        (dbl.IterativeVelPIDController.step ar vm su c reading now).1.output) := by
  cases hOn : c.isOn with
  | false =>
    simp [dbl.IterativeVelPIDController.step, hOn]
  | true =>
    by_cases hDt : (c.loopDtTimer.placeHardMark now).getDtFromHardMark now ≥ c.sampleTime
    · simp only [dbl.IterativeVelPIDController.step, dbl.IterativeVelPIDController.stepVel,
        dbl.IterativeVelPIDController.unclamped, hOn, if_true, Timer.clearHardMark]
      rw [if_pos hDt]
      exact ⟨rfl, rfl, rfl, Or.inr rfl, fun _ => rfl⟩
    · simp only [dbl.IterativeVelPIDController.step, hOn, if_true]
      rw [if_neg hDt]
      exact ⟨rfl, rfl, rfl, Or.inl rfl, fun _ => rfl⟩

/-- Along a run of `step` and `setTarget` calls from an enabled controller with ordered
limits whose stored output is NaN or within the limits, every returned value is NaN or
within the limits, and the final controller is of the same kind. -/
theorem dbl_runCalls_range {V S : Type} (ar : dbl.Arith) (vm : dbl.VelMath V)
    (su : dbl.SettledUtil S) (calls : List dbl.Call) :
    ∀ c : dbl.IterativeVelPIDController V S, c.isOn = true →
      dbl.Double.le c.outputMin c.outputMax = true →
      (c.output = dbl.Double.nan ∨
        (dbl.Double.le c.outputMin c.output = true ∧
          dbl.Double.le c.output c.outputMax = true)) →
      (∀ y ∈ (dbl.runCalls ar vm su c calls).2, y = dbl.Double.nan ∨
        (dbl.Double.le c.outputMin y = true ∧ dbl.Double.le y c.outputMax = true)) ∧
      (dbl.runCalls ar vm su c calls).1.isOn = true ∧
      (dbl.runCalls ar vm su c calls).1.outputMin = c.outputMin ∧
      (dbl.runCalls ar vm su c calls).1.outputMax = c.outputMax ∧
      ((dbl.runCalls ar vm su c calls).1.output = dbl.Double.nan ∨
        (dbl.Double.le c.outputMin (dbl.runCalls ar vm su c calls).1.output = true ∧
          dbl.Double.le (dbl.runCalls ar vm su c calls).1.output c.outputMax = true)) := by
  induction calls with
  | nil =>
    intro c hOn _ hOut
    refine ⟨?_, hOn, rfl, rfl, hOut⟩
    intro y hy
    simp [dbl.runCalls] at hy
  | cons call rest ih =>
    intro c hOn hLim hOut
    cases call with
    | step reading now =>
      obtain ⟨p1, p2, p3, p4, p5⟩ := dbl_step_output ar vm su c reading now
      have hout1 : (dbl.IterativeVelPIDController.step ar vm su c reading now).1.output
            = dbl.Double.nan ∨
          (dbl.Double.le c.outputMin
              (dbl.IterativeVelPIDController.step ar vm su c reading now).1.output = true ∧
            dbl.Double.le (dbl.IterativeVelPIDController.step ar vm su c reading now).1.output
              c.outputMax = true) := by
        rcases p4 with e | e
        · rw [e]; exact hOut
        · rw [e]; exact dbl_clamp_nan_or_mem _ _ _ hLim
      obtain ⟨i1, i2, i3, i4, i5⟩ :=
        ih (dbl.IterativeVelPIDController.step ar vm su c reading now).1
          (by rw [p3]; exact hOn) (by rw [p1, p2]; exact hLim) (by rw [p1, p2]; exact hout1)
      rw [p1, p2] at i1 i5
      simp only [dbl.runCalls, List.mem_cons]
      refine ⟨?_, i2, by rw [i3, p1], by rw [i4, p2], i5⟩
      intro y hy
      rcases hy with hy | hy
      · rw [hy, p5 hOn]; exact hout1
      · exact i1 y hy
    | setTarget itarget =>
      simp only [dbl.runCalls]
      exact ih (dbl.IterativeVelPIDController.setTarget c itarget) hOn hLim hOut

/-- A result of magnitude at most a million does not overflow. -/
theorem dbl_ofRat_of_small (q : ℚ) (h1 : -1000000 ≤ q) (h2 : q ≤ 1000000) :
    dbl.Double.ofRat q = dbl.Double.fin q := by
  have e1 : (2 : ℚ) ^ 970 ≤ 2 ^ 1023 := pow_le_pow_right₀ (by norm_num) (by norm_num)
  have e2 : (2 : ℚ) ^ 21 ≤ 2 ^ 1023 := pow_le_pow_right₀ (by norm_num) (by norm_num)
  have e3 : (2 : ℚ) ^ 1024 = 2 * 2 ^ 1023 := by rw [pow_succ]; ring
  have e4 : (1000000 : ℚ) < 2 ^ 21 := by norm_num
  unfold dbl.Double.ofRat dbl.Double.overflowThreshold
  rw [if_neg (by rw [e3]; linarith), if_neg (by rw [e3]; linarith)]

/-- A result of at least `2^1024` overflows to `+inf`. -/
theorem dbl_ofRat_of_big (q : ℚ) (h : 2 ^ 1024 ≤ q) :
    dbl.Double.ofRat q = dbl.Double.posInf := by
  have e1 : (0 : ℚ) < 2 ^ 970 := by positivity
  unfold dbl.Double.ofRat dbl.Double.overflowThreshold
  rw [if_pos (by linarith)]

/-- The product of two finite non-zero values. -/
theorem dbl_mul_fin (p q : ℚ) (hp : p ≠ 0) (hq : q ≠ 0) :
    dbl.Double.mul (dbl.Double.fin p) (dbl.Double.fin q) = dbl.Double.ofRat (p * q) := by
  simp [dbl.Double.mul, dbl.Double.isNaN, dbl.Double.isInf, dbl.Double.isZero,
    dbl.Double.toRat, hp, hq]

/-- The product of a finite value and positive zero. -/
theorem dbl_mul_fin_zero (p : ℚ) :
    dbl.Double.mul (dbl.Double.fin p) (dbl.Double.fin 0) =
      dbl.Double.zero (decide (p < 0)) := by
  simp [dbl.Double.mul, dbl.Double.isNaN, dbl.Double.isInf, dbl.Double.isZero,
    dbl.Double.isNeg]

/-- The sum of two finite values. -/
theorem dbl_add_fin (p q : ℚ) :
    dbl.Double.add (dbl.Double.fin p) (dbl.Double.fin q) = dbl.Double.ofRat (p + q) := by
  simp [dbl.Double.add]

/-- The difference of two finite values, the second one not zero. -/
theorem dbl_sub_fin (p q : ℚ) (hq : q ≠ 0) :
    dbl.Double.sub (dbl.Double.fin p) (dbl.Double.fin q) = dbl.Double.ofRat (p - q) := by
  simp [dbl.Double.sub, dbl.Double.neg, dbl.Double.add, hq, sub_eq_add_neg]

/-- Subtracting positive zero from a finite value. -/
theorem dbl_sub_fin_zero (p : ℚ) :
    dbl.Double.sub (dbl.Double.fin p) (dbl.Double.fin 0) = dbl.Double.fin p := by
  simp [dbl.Double.sub, dbl.Double.neg, dbl.Double.add]

/-- A gated call over `double`: only the hard mark is placed, the stored output is
returned. -/
theorem dbl_step_of_lt {V S : Type} (ar : dbl.Arith) (vm : dbl.VelMath V)
    (su : dbl.SettledUtil S) (c : dbl.IterativeVelPIDController V S) (reading : dbl.Double)
    (now : Nat) (hOn : c.isOn = true)
    (hDt : (c.loopDtTimer.placeHardMark now).getDtFromHardMark now < c.sampleTime) :
    dbl.IterativeVelPIDController.step ar vm su c reading now =
      ({ c with loopDtTimer := c.loopDtTimer.placeHardMark now }, c.output) := by
  simp only [dbl.IterativeVelPIDController.step, hOn, if_true]
  rw [if_neg (by simpa using hDt)]

/-- An accepted sample over `double` stores and returns `std::clamp` of its sum. -/
theorem dbl_step_of_ge {V S : Type} (ar : dbl.Arith) (vm : dbl.VelMath V)
    (su : dbl.SettledUtil S) (c : dbl.IterativeVelPIDController V S) (reading : dbl.Double)
    (now : Nat) (hOn : c.isOn = true)
    (hDt : (c.loopDtTimer.placeHardMark now).getDtFromHardMark now ≥ c.sampleTime) :
    (dbl.IterativeVelPIDController.step ar vm su c reading now).2 =
      dbl.clamp (dbl.IterativeVelPIDController.unclamped ar vm c reading)
        c.outputMin c.outputMax ∧
    (dbl.IterativeVelPIDController.step ar vm su c reading now).1.output =
      dbl.clamp (dbl.IterativeVelPIDController.unclamped ar vm c reading)
        c.outputMin c.outputMax ∧
    (dbl.IterativeVelPIDController.step ar vm su c reading now).1.outputMin = c.outputMin ∧
    (dbl.IterativeVelPIDController.step ar vm su c reading now).1.outputMax = c.outputMax := by
  simp only [dbl.IterativeVelPIDController.step, dbl.IterativeVelPIDController.stepVel,
    dbl.IterativeVelPIDController.unclamped, hOn, if_true, Timer.clearHardMark]
  rw [if_pos hDt]
  exact ⟨rfl, rfl, rfl, rfl⟩

/-- The overflow at the input of the counterexamples: with `kP = kD = 2^1000`, target
`2^101`, stored output 0 and the estimator at rest, the sum of the sample with reading
`2^100` is NaN. -/
theorem dbl_unclamped_demoHuge
    (c : dbl.IterativeVelPIDController (dbl.Double × dbl.Double × dbl.Double) Unit)
    (hkP : c.kP = dbl.Double.fin (2 ^ 1000)) (hkD : c.kD = dbl.Double.fin (2 ^ 1000))
    (hT : c.target = dbl.Double.fin (2 ^ 101)) (hO : c.output = dbl.Double.fin 0)
    (hV : c.velMath = (dbl.Double.fin 0, dbl.Double.fin 0, dbl.Double.fin 0)) :
    dbl.Double.mul (dbl.Double.fin (2 ^ 1000))
      (dbl.Double.sub (dbl.Double.fin (2 ^ 101)) (dbl.Double.fin (2 ^ 100))) =
        dbl.Double.posInf ∧
    dbl.Double.mul (dbl.Double.fin (2 ^ 1000)) (dbl.Double.fin (2 ^ 100)) =
      dbl.Double.posInf ∧
    dbl.Double.sub dbl.Double.posInf dbl.Double.posInf = dbl.Double.nan ∧
    dbl.IterativeVelPIDController.unclamped dbl.unroundedArith dbl.diffVelMath c
      (dbl.Double.fin (2 ^ 100)) = dbl.Double.nan := by
  have n100 : (2 : ℚ) ^ 100 ≠ 0 := by positivity
  have n1000 : (2 : ℚ) ^ 1000 ≠ 0 := by positivity
  have e101 : (2 : ℚ) ^ 101 - 2 ^ 100 = 2 ^ 100 := by rw [pow_succ]; ring
  have e1100 : (2 : ℚ) ^ 1000 * 2 ^ 100 = 2 ^ 1100 := by rw [← pow_add]
  have big : (2 : ℚ) ^ 1024 ≤ 2 ^ 1100 := pow_le_pow_right₀ (by norm_num) (by norm_num)
  have small : dbl.Double.ofRat ((2 : ℚ) ^ 100) = dbl.Double.fin (2 ^ 100) := by
    have e1 : (2 : ℚ) ^ 970 < 2 ^ 1022 := pow_lt_pow_right₀ (by norm_num) (by norm_num)
    have e2 : (2 : ℚ) ^ 100 < 2 ^ 1022 := pow_lt_pow_right₀ (by norm_num) (by norm_num)
    have e3 : (2 : ℚ) ^ 1024 = 4 * 2 ^ 1022 := by rw [pow_succ, pow_succ]; ring
    have e4 : (0 : ℚ) < 2 ^ 100 := by positivity
    unfold dbl.Double.ofRat dbl.Double.overflowThreshold
    rw [if_neg (by rw [e3]; linarith), if_neg (by rw [e3]; linarith)]
  have herr : dbl.Double.sub (dbl.Double.fin (2 ^ 101)) (dbl.Double.fin (2 ^ 100)) =
      dbl.Double.fin (2 ^ 100) := by
    rw [dbl_sub_fin _ _ n100, e101, small]
  have hmul : dbl.Double.mul (dbl.Double.fin (2 ^ 1000)) (dbl.Double.fin (2 ^ 100)) =
      dbl.Double.posInf := by
    rw [dbl_mul_fin _ _ n1000 n100, e1100]
    exact dbl_ofRat_of_big _ big
  have hsub : dbl.Double.sub dbl.Double.posInf dbl.Double.posInf = dbl.Double.nan := by
    simp [dbl.Double.sub, dbl.Double.neg, dbl.Double.add]
  refine ⟨by rw [herr]; exact hmul, hmul, hsub, ?_⟩
  simp only [dbl.IterativeVelPIDController.unclamped, dbl.unroundedArith, dbl.diffVelMath,
    hkP, hkD, hT, hO, hV, dbl_sub_fin_zero, herr, hmul, hsub]
  simp [dbl.Double.add]

/-- Counterexample to C6 as stated: on the enabled controller with the finite gains
`kP = kD = 2^1000` and the finite target `2^101`, after `setOutputLimits(5, -5)` the
`step` calls with the finite reading `2^100` at clock readings 0 (gated) and 10 (accepted)
return `0` and NaN. In the accepted sample the estimator reports velocity and acceleration
`2^100`, both products `kP * error` and `kD * derivative` overflow to `+inf`, their
difference is NaN, and `std::clamp` returns NaN, which is not in `[-5, 5]`. -/
theorem step_overflow_returns_nan :
    dbl.demoHuge.isOn = true ∧
    dbl.Double.mul (dbl.Double.fin (2 ^ 1000))
      (dbl.Double.sub (dbl.Double.fin (2 ^ 101)) (dbl.Double.fin (2 ^ 100))) =
        dbl.Double.posInf ∧
    dbl.Double.mul (dbl.Double.fin (2 ^ 1000)) (dbl.Double.fin (2 ^ 100)) =
      dbl.Double.posInf ∧
    dbl.Double.sub dbl.Double.posInf dbl.Double.posInf = dbl.Double.nan ∧
    (dbl.runCalls dbl.unroundedArith dbl.diffVelMath dbl.unitSettledUtil
      (dbl.IterativeVelPIDController.setOutputLimits dbl.demoHuge
        (dbl.Double.fin 5) (dbl.Double.fin (-5)))
      [dbl.Call.step (dbl.Double.fin (2 ^ 100)) 0,
        dbl.Call.step (dbl.Double.fin (2 ^ 100)) 10]).2 =
      [dbl.Double.fin 0, dbl.Double.nan] ∧
    ¬ (dbl.Double.le (dbl.Double.fin (-5)) dbl.Double.nan = true ∧
      dbl.Double.le dbl.Double.nan (dbl.Double.fin 5) = true) := by
  have hout : (dbl.IterativeVelPIDController.setOutputLimits dbl.demoHuge
      (dbl.Double.fin 5) (dbl.Double.fin (-5))).output = dbl.Double.fin 0 := by
    norm_num [dbl.IterativeVelPIDController.setOutputLimits, dbl.demoHuge, dbl.demo,
      dbl.clamp, dbl.Double.lt, dbl.Double.toRat]
  have h1 := dbl_step_of_lt dbl.unroundedArith dbl.diffVelMath dbl.unitSettledUtil
    (dbl.IterativeVelPIDController.setOutputLimits dbl.demoHuge
      (dbl.Double.fin 5) (dbl.Double.fin (-5))) (dbl.Double.fin (2 ^ 100)) 0 rfl (by decide)
  have h2 := (dbl_step_of_ge dbl.unroundedArith dbl.diffVelMath dbl.unitSettledUtil
    (dbl.IterativeVelPIDController.step dbl.unroundedArith dbl.diffVelMath dbl.unitSettledUtil
      (dbl.IterativeVelPIDController.setOutputLimits dbl.demoHuge
        (dbl.Double.fin 5) (dbl.Double.fin (-5))) (dbl.Double.fin (2 ^ 100)) 0).1
    (dbl.Double.fin (2 ^ 100)) 10 (by rw [h1]; rfl) (by rw [h1]; decide)).1
  obtain ⟨f1, f2, f3, f4⟩ := dbl_unclamped_demoHuge
    (dbl.IterativeVelPIDController.step dbl.unroundedArith dbl.diffVelMath dbl.unitSettledUtil
      (dbl.IterativeVelPIDController.setOutputLimits dbl.demoHuge
        (dbl.Double.fin 5) (dbl.Double.fin (-5))) (dbl.Double.fin (2 ^ 100)) 0).1
    (by rw [h1]; rfl) (by rw [h1]; rfl) (by rw [h1]; rfl) (by rw [h1]; exact hout)
    (by rw [h1]; rfl)
  rw [f4, dbl_clamp_nan] at h2
  refine ⟨rfl, f1, f2, f3, ?_, by simp [dbl.Double.le]⟩
  simp only [dbl.runCalls]
  rw [h2]
  rw [h1, hout]

/-- C6 (amended): for all bounds `a`, `b` that are not NaN, after `setOutputLimits(a, b)`
on an enabled controller, every value returned by `step` in any subsequent sequence of
`step` and `setTarget` calls, with any readings, any estimator, any clock readings and
whatever the arithmetic operators compute, is NaN or lies in `[min a b, max a b]`; and a
further `step` call returns a value in `[min a b, max a b]` whenever the stored output is
not NaN and the sum `output + (kP*error - kD*derivative)` of the sample is not NaN. -/
theorem output_bounded_or_nan_after_setOutputLimits {V S : Type} (ar : dbl.Arith)
    (vm : dbl.VelMath V) (su : dbl.SettledUtil S) (c : dbl.IterativeVelPIDController V S)
    (a b : dbl.Double) (calls : List dbl.Call) (hOn : c.isOn = true)
    (ha : a ≠ dbl.Double.nan) (hb : b ≠ dbl.Double.nan) :
    (∀ y ∈ (dbl.runCalls ar vm su
        (dbl.IterativeVelPIDController.setOutputLimits c a b) calls).2,
      y = dbl.Double.nan ∨
      (dbl.Double.le (dbl.Double.min a b) y = true ∧
        dbl.Double.le y (dbl.Double.max a b) = true)) ∧
    (∀ r now,
      (dbl.runCalls ar vm su
        (dbl.IterativeVelPIDController.setOutputLimits c a b) calls).1.output
          ≠ dbl.Double.nan →
      dbl.IterativeVelPIDController.unclamped ar vm (dbl.runCalls ar vm su
        (dbl.IterativeVelPIDController.setOutputLimits c a b) calls).1 r
          ≠ dbl.Double.nan →
      dbl.Double.le (dbl.Double.min a b)
        (dbl.IterativeVelPIDController.step ar vm su (dbl.runCalls ar vm su
          (dbl.IterativeVelPIDController.setOutputLimits c a b) calls).1 r now).2 = true ∧
      dbl.Double.le
        (dbl.IterativeVelPIDController.step ar vm su (dbl.runCalls ar vm su
          (dbl.IterativeVelPIDController.setOutputLimits c a b) calls).1 r now).2
        (dbl.Double.max a b) = true) := by
  obtain ⟨_, hLim⟩ := dbl_setOutputLimits_limits c a b ha hb
  obtain ⟨r1, r2, r3, r4, r5⟩ := dbl_runCalls_range ar vm su calls
    (dbl.IterativeVelPIDController.setOutputLimits c a b) hOn hLim
    (dbl_clamp_nan_or_mem c.output _ _ hLim)
  refine ⟨r1, ?_⟩
  intro r now hout hsum
  obtain ⟨p1, p2, _, p4, p5⟩ := dbl_step_output ar vm su (dbl.runCalls ar vm su
    (dbl.IterativeVelPIDController.setOutputLimits c a b) calls).1 r now
  rw [p5 r2]
  rcases p4 with e | e
  · rw [e]
    rcases r5 with h | h
    · exact absurd h hout
    · exact h
  · rw [e, r3, r4]
    exact dbl_clamp_mem _ _ _ hsum hLim

/-- Witness of C6 (amended): after `setOutputLimits(5, -5)` on the demo controller, the
calls `step` at 0 (gated), `step` at 10 (accepted, saturating at 5), `setTarget(-100)`,
`step` at 20 (gated) and `step` at 30 (accepted, saturating at -5) return
`0, 5, 5, -5`. -/
theorem output_bounded_or_nan_after_setOutputLimits_witness :
    dbl.demo.isOn = true ∧ dbl.Double.fin 5 ≠ dbl.Double.nan ∧
    dbl.Double.fin (-5) ≠ dbl.Double.nan ∧
    (dbl.runCalls dbl.unroundedArith dbl.diffVelMath dbl.unitSettledUtil
      (dbl.IterativeVelPIDController.setOutputLimits dbl.demo
        (dbl.Double.fin 5) (dbl.Double.fin (-5)))
      [dbl.Call.step (dbl.Double.fin 0) 0, dbl.Call.step (dbl.Double.fin 0) 10,
        dbl.Call.setTarget (dbl.Double.fin (-100)), dbl.Call.step (dbl.Double.fin 0) 20,
        dbl.Call.step (dbl.Double.fin 0) 30]).2 =
      [dbl.Double.fin 0, dbl.Double.fin 5, dbl.Double.fin 5, dbl.Double.fin (-5)] ∧
    ∀ y ∈ (dbl.runCalls dbl.unroundedArith dbl.diffVelMath dbl.unitSettledUtil
      (dbl.IterativeVelPIDController.setOutputLimits dbl.demo
        (dbl.Double.fin 5) (dbl.Double.fin (-5)))
      [dbl.Call.step (dbl.Double.fin 0) 0, dbl.Call.step (dbl.Double.fin 0) 10,
        dbl.Call.setTarget (dbl.Double.fin (-100)), dbl.Call.step (dbl.Double.fin 0) 20,
        dbl.Call.step (dbl.Double.fin 0) 30]).2,
      y = dbl.Double.nan ∨
      (dbl.Double.le (dbl.Double.min (dbl.Double.fin 5) (dbl.Double.fin (-5))) y = true ∧
        dbl.Double.le y (dbl.Double.max (dbl.Double.fin 5) (dbl.Double.fin (-5))) = true) :=
  ⟨rfl, by simp, by simp,
    by norm_num [dbl.runCalls, dbl.IterativeVelPIDController.step,
      dbl.IterativeVelPIDController.stepVel, dbl.IterativeVelPIDController.setOutputLimits,
      dbl.IterativeVelPIDController.setTarget, dbl.demo, dbl.diffVelMath,
      dbl.unitSettledUtil, dbl.unroundedArith, dbl.clamp,
      Timer.placeHardMark, Timer.getDtFromHardMark, Timer.clearHardMark,
      dbl.Double.lt, dbl.Double.toRat, dbl.Double.zero, dbl_sub_fin_zero, dbl_sub_fin,
      dbl_mul_fin, dbl_mul_fin_zero, dbl_add_fin, dbl_ofRat_of_small],
    (output_bounded_or_nan_after_setOutputLimits dbl.unroundedArith dbl.diffVelMath
      dbl.unitSettledUtil dbl.demo (dbl.Double.fin 5) (dbl.Double.fin (-5))
      [dbl.Call.step (dbl.Double.fin 0) 0, dbl.Call.step (dbl.Double.fin 0) 10,
        dbl.Call.setTarget (dbl.Double.fin (-100)), dbl.Call.step (dbl.Double.fin 0) 20,
        dbl.Call.step (dbl.Double.fin 0) 30] rfl (by simp) (by simp)).1⟩

/-- Counterexample to C16 as stated, for two operations. (i) On the controller with limits
`[1, 2]` and stored output 1, within the limits, `reset()` stores output 0, below
`outputMin`. (ii) On the controller with limits `[-127, 127]`, stored output 0, the finite
gains `kP = kD = 2^1000`, the finite target `2^101` and a hard mark at 0, within the
limits, `step` with the finite reading `2^100` at clock reading 10 stores the output NaN
(`inf - inf` after both products overflow), which is not within the limits. -/
theorem reset_or_overflow_leaves_output_limits :
    dbl.IterativeVelPIDController.withinLimits dbl.demoNarrow = true ∧
    (dbl.applyOp dbl.unroundedArith dbl.diffVelMath dbl.unitSettledUtil dbl.demoNarrow
      dbl.Op.reset).outputMin = dbl.Double.fin 1 ∧
    (dbl.applyOp dbl.unroundedArith dbl.diffVelMath dbl.unitSettledUtil dbl.demoNarrow
      dbl.Op.reset).output = dbl.Double.fin 0 ∧
    dbl.IterativeVelPIDController.withinLimits
      (dbl.applyOp dbl.unroundedArith dbl.diffVelMath dbl.unitSettledUtil dbl.demoNarrow
        dbl.Op.reset) = false ∧
    dbl.IterativeVelPIDController.withinLimits dbl.demoHugeMarked = true ∧
    (dbl.applyOp dbl.unroundedArith dbl.diffVelMath dbl.unitSettledUtil dbl.demoHugeMarked
      (dbl.Op.step (dbl.Double.fin (2 ^ 100)) 10)).output = dbl.Double.nan ∧
    dbl.IterativeVelPIDController.withinLimits
      (dbl.applyOp dbl.unroundedArith dbl.diffVelMath dbl.unitSettledUtil dbl.demoHugeMarked
        (dbl.Op.step (dbl.Double.fin (2 ^ 100)) 10)) = false := by
  have hnarrow : dbl.demoNarrow =
      { dbl.demo with
        outputMax := dbl.Double.fin 2,
        outputMin := dbl.Double.fin 1,
        output := dbl.Double.fin 1 } := by
    norm_num [dbl.demoNarrow, dbl.IterativeVelPIDController.setOutputLimits, dbl.demo,
      dbl.clamp, dbl.Double.lt, dbl.Double.toRat]
  obtain ⟨_, g2, _, _⟩ := dbl_step_of_ge dbl.unroundedArith dbl.diffVelMath dbl.unitSettledUtil
    dbl.demoHugeMarked (dbl.Double.fin (2 ^ 100)) 10 rfl (by decide)
  have hsum := (dbl_unclamped_demoHuge dbl.demoHugeMarked rfl rfl rfl rfl rfl).2.2.2
  rw [hsum, dbl_clamp_nan] at g2
  refine ⟨?_, ?_, ?_, ?_, ?_, g2, ?_⟩
  · rw [hnarrow]
    norm_num [dbl.IterativeVelPIDController.withinLimits, dbl.Double.le, dbl.Double.toRat]
  · rw [hnarrow]; rfl
  · rfl
  · rw [hnarrow]
    norm_num [dbl.IterativeVelPIDController.withinLimits, dbl.applyOp,
      dbl.IterativeVelPIDController.reset, dbl.Double.le, dbl.Double.toRat]
  · norm_num [dbl.IterativeVelPIDController.withinLimits, dbl.demoHugeMarked, dbl.demoHuge,
      dbl.demo, dbl.Double.le, dbl.Double.toRat]
  · simp only [dbl.IterativeVelPIDController.withinLimits, dbl.applyOp, g2]
    simp [dbl.Double.le]

/-- C16 (amended): let `outputMin <= output <= outputMax` hold before an operation.
(i) After an operation other than `reset` and `step` it holds, for every argument, the
arguments of `setOutputLimits` not being NaN. (ii) After `step` it holds, unless the call
is an accepted sample whose sum `output + (kP*error - kD*derivative)` is NaN, which is
then the stored output; in particular it holds whenever that sum is not NaN, whatever the
arithmetic operators compute. (iii) After `reset()`, which stores output 0 and leaves the
limits, it holds exactly when `outputMin <= 0 <= outputMax`. -/
theorem output_within_limits_preserved {V S : Type} (ar : dbl.Arith) (vm : dbl.VelMath V)
    (su : dbl.SettledUtil S) (c : dbl.IterativeVelPIDController V S) (op : dbl.Op)
    (h : dbl.IterativeVelPIDController.withinLimits c = true) :
    (op ≠ dbl.Op.reset → (∀ r now, op ≠ dbl.Op.step r now) →
      (∀ a b, op = dbl.Op.setOutputLimits a b → a ≠ dbl.Double.nan ∧ b ≠ dbl.Double.nan) →
      dbl.IterativeVelPIDController.withinLimits (dbl.applyOp ar vm su c op) = true) ∧
    (∀ r now,
      (dbl.IterativeVelPIDController.withinLimits
          (dbl.applyOp ar vm su c (dbl.Op.step r now)) = true ∨
        ((dbl.applyOp ar vm su c (dbl.Op.step r now)).output = dbl.Double.nan ∧
          dbl.IterativeVelPIDController.unclamped ar vm c r = dbl.Double.nan)) ∧
      (dbl.IterativeVelPIDController.unclamped ar vm c r ≠ dbl.Double.nan →
        dbl.IterativeVelPIDController.withinLimits
          (dbl.applyOp ar vm su c (dbl.Op.step r now)) = true)) ∧
    (dbl.IterativeVelPIDController.withinLimits (dbl.applyOp ar vm su c dbl.Op.reset) = true ↔
      (dbl.Double.le c.outputMin (dbl.Double.fin 0) = true ∧
        dbl.Double.le (dbl.Double.fin 0) c.outputMax = true)) := by
  have h' : dbl.Double.le c.outputMin c.output = true ∧
      dbl.Double.le c.output c.outputMax = true := by
    simpa [dbl.IterativeVelPIDController.withinLimits] using h
  have hLim : dbl.Double.le c.outputMin c.outputMax = true :=
    dbl_le_trans _ _ _ h'.1 h'.2
  have hstep : ∀ r now,
      (dbl.IterativeVelPIDController.withinLimits
          (dbl.applyOp ar vm su c (dbl.Op.step r now)) = true ∨
        ((dbl.applyOp ar vm su c (dbl.Op.step r now)).output = dbl.Double.nan ∧
          dbl.IterativeVelPIDController.unclamped ar vm c r = dbl.Double.nan)) ∧
      (dbl.IterativeVelPIDController.unclamped ar vm c r ≠ dbl.Double.nan →
        dbl.IterativeVelPIDController.withinLimits
          (dbl.applyOp ar vm su c (dbl.Op.step r now)) = true) := by
    intro r now
    obtain ⟨p1, p2, _, p4, _⟩ := dbl_step_output ar vm su c r now
    simp only [dbl.applyOp, dbl.IterativeVelPIDController.withinLimits, p1, p2,
      Bool.and_eq_true]
    rcases p4 with e | e
    · rw [e]; exact ⟨Or.inl h', fun _ => h'⟩
    · rw [e]
      by_cases hs : dbl.IterativeVelPIDController.unclamped ar vm c r = dbl.Double.nan
      · refine ⟨Or.inr ⟨?_, hs⟩, fun hne => absurd hs hne⟩
        rw [hs]; exact dbl_clamp_nan _ _
      · exact ⟨Or.inl (dbl_clamp_mem _ _ _ hs hLim), fun _ => dbl_clamp_mem _ _ _ hs hLim⟩
  refine ⟨?_, hstep, ?_⟩
  · intro hne hns hargs
    cases op with
    | setGains ikP ikD => exact h
    | setSampleTime isampleTime =>
      simp only [dbl.applyOp, dbl.IterativeVelPIDController.setSampleTime]
      split_ifs <;> exact h
    | setOutputLimits imax imin =>
      obtain ⟨ha, hb⟩ := hargs imax imin rfl
      obtain ⟨e, hord⟩ := dbl_setOutputLimits_limits c imax imin ha hb
      simp only [dbl.applyOp]
      rw [e]
      simp only [dbl.IterativeVelPIDController.withinLimits, Bool.and_eq_true]
      exact dbl_clamp_mem _ _ _ (dbl_le_ne_nan _ _ h'.1).2 hord
    | stepVel inewReading => exact h
    | step inewReading now => exact absurd rfl (hns inewReading now)
    | setTarget itarget => exact h
    | isSettled => exact h
    | reset => exact absurd rfl hne
    | flipDisable => exact h
    | flipDisableTo iisDisabled => exact h
    | setTicksPerRev tpr => exact h
  · simp [dbl.IterativeVelPIDController.withinLimits, dbl.applyOp,
      dbl.IterativeVelPIDController.reset]

/-- Witness of C16 (amended): on the demo controller (output 0 within `[-127, 127]`) the
invariant holds after `setOutputLimits(3, 1)`, after the gated `step` at clock reading 0,
whose sum `0 + (1 * (10 - 4) - (1/2) * 4) = 4` is not NaN, and after `reset()`, the limits
enclosing 0. -/
theorem output_within_limits_preserved_witness :
    dbl.IterativeVelPIDController.withinLimits dbl.demo = true ∧
    dbl.IterativeVelPIDController.withinLimits
      (dbl.applyOp dbl.unroundedArith dbl.diffVelMath dbl.unitSettledUtil dbl.demo
        (dbl.Op.setOutputLimits (dbl.Double.fin 3) (dbl.Double.fin 1))) = true ∧
    dbl.IterativeVelPIDController.unclamped dbl.unroundedArith dbl.diffVelMath dbl.demo
      (dbl.Double.fin 4) = dbl.Double.fin 4 ∧
    dbl.IterativeVelPIDController.withinLimits
      (dbl.applyOp dbl.unroundedArith dbl.diffVelMath dbl.unitSettledUtil dbl.demo
        (dbl.Op.step (dbl.Double.fin 4) 0)) = true ∧
    dbl.IterativeVelPIDController.withinLimits
      (dbl.applyOp dbl.unroundedArith dbl.diffVelMath dbl.unitSettledUtil dbl.demo
        dbl.Op.reset) = true :=
  have h : dbl.IterativeVelPIDController.withinLimits dbl.demo = true := by
    norm_num [dbl.IterativeVelPIDController.withinLimits, dbl.demo, dbl.Double.le,
      dbl.Double.toRat]
  have hsum : dbl.IterativeVelPIDController.unclamped dbl.unroundedArith dbl.diffVelMath dbl.demo
      (dbl.Double.fin 4) = dbl.Double.fin 4 := by
    norm_num [dbl.IterativeVelPIDController.unclamped, dbl.demo, dbl.diffVelMath,
      dbl.unroundedArith, dbl_sub_fin_zero, dbl_sub_fin, dbl_mul_fin, dbl_add_fin,
      dbl_ofRat_of_small]
  ⟨h,
    (output_within_limits_preserved dbl.unroundedArith dbl.diffVelMath dbl.unitSettledUtil
      dbl.demo (dbl.Op.setOutputLimits (dbl.Double.fin 3) (dbl.Double.fin 1)) h).1
      (by intro e; cases e) (by intro r now e; cases e)
      (by intro a b e; cases e; exact ⟨by simp, by simp⟩),
    hsum,
    ((output_within_limits_preserved dbl.unroundedArith dbl.diffVelMath dbl.unitSettledUtil
      dbl.demo dbl.Op.reset h).2.1 (dbl.Double.fin 4) 0).2 (by rw [hsum]; simp),
    (output_within_limits_preserved dbl.unroundedArith dbl.diffVelMath dbl.unitSettledUtil
      dbl.demo dbl.Op.reset h).2.2.mpr
      (by norm_num [dbl.demo, dbl.Double.le, dbl.Double.toRat])⟩
